import Mathlib

/-!
# Stream base write and read paths (src/src/stream_base.cc)

A shallow embedding of `StreamBase::WriteString`, `StreamBase::Writev`,
`StreamBase::SetWriteResult`, `StreamBase::CallJSOnreadMethod`,
`StreamResource::DoTryWrite` and `EmitToJSStreamListener::OnStreamRead`.

Conventions.
* `size_t` and `uint64_t` are 64 bit wide: values are naturals and every
  addition or subtraction the source performs on them is reduced modulo `2 ^ 64`.
* Everything the source calls but does not define (the `StringBytes` codec, the
  virtual `DoTryWrite` and `IsIPCPipe` of the concrete stream, `StreamBase::Write`,
  the conversions of JS values) is a parameter of the embedding.
* Every call has a trace: the list of the external calls it made, in order.
* A failed `CHECK` ends the call with `Outcome.abort`.
-/

namespace node

/-- One byte of a buffer. -/
abbrev Byte := Nat

/-- The constant `INT_MAX` of `<climits>` for a 32 bit `int`. -/
def INT_MAX : Nat := 2147483647

/-- The modulus of `size_t` and of `uint64_t` arithmetic. -/
def SIZE_MOD : Nat := 2 ^ 64

/-- Addition of two `size_t` (or `uint64_t`) values. -/
def size_add (a b : Nat) : Nat := (a + b) % SIZE_MOD

/-- Subtraction of two `size_t` values, both below `2 ^ 64`. -/
def size_sub (a b : Nat) : Nat := (a + SIZE_MOD - b) % SIZE_MOD

/-- Modelled from the spec: the status "buffer too large / would exceed limit";
the libuv constant `UV_ENOBUFS` is declared outside src, this is its Linux value. -/
def UV_ENOBUFS : Int := -105

/-- Modelled from the spec: the status "argument invalid"; the libuv constant
`UV_EINVAL` is declared outside src, this is its Linux value. -/
def UV_EINVAL : Int := -22

/-- The value of `sizeof(stack_storage)` for `char stack_storage[16384]`. -/
def STACK_STORAGE_SIZE : Nat := 16384

/-- Modelled from the spec: the "encoding tag"; the enumeration `enum encoding`
is declared outside src. `LATIN1` is another name of `BINARY`. -/
inductive encoding where
  | ASCII
  | UTF8
  | BASE64
  | UCS2
  | BINARY
  | HEX
  | BUFFER
  deriving DecidableEq, Repr

/-- The enumerator `LATIN1`. -/
def LATIN1 : encoding := encoding.BINARY

/-- A JS string (`v8::String`), as its sequence of UTF-16 code units. -/
structure JSString where
  units : List Nat
  deriving DecidableEq, Repr

/-- The method `String::Length()`: the number of code units. -/
def JSString.Length (s : JSString) : Nat := s.units.length

/-- The codec `StringBytes`, a parameter: `Size` and `StorageSize` return a
`Maybe<size_t>`, and `Write s enc buflen` is the list of bytes that
`StringBytes::Write(isolate, buf, buflen, s, enc)` stores at `buf`; the value it
returns is the length of that list. -/
structure StringBytes where
  Size : JSString → encoding → Option Nat
  StorageSize : JSString → encoding → Option Nat
  Write : JSString → encoding → Nat → List Byte

/-- A `char*`: where a `uv_buf_t` points. -/
inductive Ptr where
  | null
  | stack_storage (off : Nat)
  | storage (off : Nat)
  | chunk (index : Nat)
  deriving DecidableEq, Repr

/-- The libuv buffer descriptor `uv_buf_t`. -/
structure uv_buf_t where
  base : Ptr
  len : Nat
  deriving DecidableEq, Repr

/-- The libuv constructor `uv_buf_init(char* base, unsigned int len)`: the length
is converted to `unsigned int`. -/
def uv_buf_init (base : Ptr) (len : Nat) : uv_buf_t :=
  { base := base, len := len % 2 ^ 32 }

/-- The record `StreamWriteResult { async, err, wrap, bytes }`; `wrap` is the
`WriteWrap*`, `none` for `nullptr`. -/
structure StreamWriteResult where
  async : Bool
  err : Int
  wrap : Option Nat
  bytes : Nat
  deriving DecidableEq, Repr

/-- An `AllocatedBuffer`: its `size()` and the bytes stored in it so far
(from `data()` on). The default constructed one has size 0. -/
structure AllocatedBuffer where
  size : Nat
  bytes : List Byte
  deriving DecidableEq, Repr

/-- What `DoTryWrite(&bufs, &count)` leaves behind: its return value, the new
`count`, and the buffer descriptor `buf` that `bufs` pointed to. -/
structure TryWriteOutcome where
  err : Int
  count : Nat
  buf : uv_buf_t
  deriving DecidableEq, Repr

/-- What `StreamBase::Write` does: the result it returns and the amount it adds
to `bytes_written_`. -/
structure WriteOutcome where
  res : StreamWriteResult
  added : Nat
  deriving DecidableEq, Repr

/-- The concrete stream, a parameter: the virtual methods `IsIPCPipe` and
`DoTryWrite` (given the content of `stack_storage`, the descriptor and the
count), and `StreamBase::Write` (given the descriptors, the bytes each one
designates, and the send handle). -/
structure StreamEnv where
  IsIPCPipe : Bool
  DoTryWrite : List Byte → uv_buf_t → Nat → TryWriteOutcome
  Write : List uv_buf_t → List (List Byte) → Option Nat → WriteOutcome

/-- The default `StreamResource::DoTryWrite`: "No TryWrite by default", it
returns 0 and touches neither `bufs` nor `count`. -/
def StreamResource.DoTryWrite (_stack : List Byte) (buf : uv_buf_t) (count : Nat) :
    TryWriteOutcome :=
  { err := 0, count := count, buf := buf }

/-- The default `StreamBase::IsIPCPipe`. -/
def StreamBase.IsIPCPipe : Bool := false

/-- The JS object given as send handle; `wrap` is what
`ASSIGN_OR_RETURN_UNWRAP` finds in it (the handle of the wrap), if anything. -/
structure HandleObject where
  wrap : Option Nat
  deriving DecidableEq, Repr

/-- The `AsyncWrap` of a stream, as far as `CallJSOnreadMethod` looks at it:
whether the internal field `kOnReadFunctionField` holds a function. -/
structure AsyncWrap where
  onread_is_function : Bool
  deriving DecidableEq, Repr

/-- The stream object: the counter `bytes_written_`, the four fields of
`env->stream_base_state()` it writes, and `GetAsyncWrap()`. -/
structure StreamBase where
  bytes_written_ : Nat
  kBytesWritten : Nat
  kLastWriteWasAsync : Bool
  kReadBytesOrError : Int
  kArrayBufferOffset : Nat
  async_wrap : Option AsyncWrap
  deriving DecidableEq, Repr

/-- One external call made by an operation. -/
inductive Event where
  | DoTryWrite (stack_storage : List Byte) (buf : uv_buf_t) (count : Nat)
      (out : TryWriteOutcome)
  | AllocateManaged (size : Nat)
  | SetHandle (send_handle_obj : HandleObject)
  | Write (bufs : List uv_buf_t) (payload : List (List Byte)) (send_handle : Option Nat)
  | SetWriteResult (res : StreamWriteResult)
  | SetAllocatedStorage (wrap : Nat) (storage : AllocatedBuffer)
  | CallJSOnreadMethod (nread : Int) (ab : Option (List Byte)) (offset : Nat)
  | MakeCallback (argv : Option (List Byte))
  deriving DecidableEq, Repr

/-- How a call ends: it returns an `int`, it returns from a `void` function,
or a `CHECK` fails. -/
inductive Outcome where
  | ret (err : Int)
  | done
  | abort
  deriving DecidableEq, Repr

/-- The result of one call: how it ended, the stream afterwards, and the
external calls it made. -/
structure Result where
  ret : Outcome
  stream : StreamBase
  trace : List Event
  deriving DecidableEq, Repr

/-- The method `StreamBase::SetWriteResult` (lines 61-64). -/
def StreamBase.SetWriteResult (self : StreamBase) (res : StreamWriteResult) : StreamBase :=
  { self with kBytesWritten := res.bytes, kLastWriteWasAsync := res.async }

/-- The storage size computed at lines 202-208 (and, per chunk, at lines
100-106): `none` stands for `return 0`. When the first condition is false the
`else if` runs, so a successful `StringBytes::Size` is followed by
`StringBytes::StorageSize`, which assigns the variable again. -/
def computeStorageSize (sb : StringBytes) (string : JSString) (enc : encoding) : Option Nat :=
  if enc = encoding.UTF8 ∧ string.Length > 65535 ∧ sb.Size string enc = none then
    none
  else
    match sb.StorageSize string enc with
    | none => none
    | some storage_size => some storage_size

/-- The bytes that `memcpy(data.data(), buf.base, buf.len)` reads at line 253,
for a `buf.base` inside `stack_storage`; no other memory is modelled there. -/
def readStack (stack_storage : List Byte) (buf : uv_buf_t) : List Byte :=
  match buf.base with
  | Ptr.stack_storage off => (stack_storage.drop off).take buf.len
  | _ => []

/-- Lines 282-290 of `WriteString`: the call of `Write` with the one buffer
`buf`, the report, and the hand-over of the allocated buffer. `pre` is the
trace of lines 269-280. -/
def WriteString.send (env : StreamEnv) (self : StreamBase) (data : AllocatedBuffer)
    (buf : uv_buf_t) (synchronously_written : Nat) (send_handle : Option Nat)
    (pre : List Event) : Result :=
  let payload := [data.bytes.take buf.len]
  let w := env.Write [buf] payload send_handle
  let self1 := { self with bytes_written_ := size_add self.bytes_written_ w.added }
  let res := { w.res with bytes := size_add w.res.bytes synchronously_written }
  { ret := Outcome.ret res.err
    stream := self1.SetWriteResult res
    trace := pre ++ [Event.Write [buf] payload send_handle, Event.SetWriteResult res] ++
      (match res.wrap with
        | some wrap => [Event.SetAllocatedStorage wrap data]
        | none => []) }

/-- Lines 265-290 of `WriteString`: the `CHECK_LE`, the send handle, then
`WriteString.send`. `data` is the allocated buffer, `data_size` the number of
bytes in it. -/
def WriteString.issue (env : StreamEnv) (self : StreamBase)
    (send_handle_obj : Option HandleObject) (storage_size : Nat) (data : AllocatedBuffer)
    (data_size synchronously_written : Nat) : Result :=
  if data_size ≤ storage_size then
    let buf := uv_buf_init (Ptr.storage 0) data_size
    match send_handle_obj with
    | some obj =>
      if env.IsIPCPipe then
        match obj.wrap with
        | none => { ret := Outcome.ret UV_EINVAL, stream := self, trace := [] }
        | some handle =>
          WriteString.send env self data buf synchronously_written (some handle)
            [Event.SetHandle obj]
      else WriteString.send env self data buf synchronously_written none []
    | none => WriteString.send env self data buf synchronously_written none []
  else
    { ret := Outcome.abort, stream := self, trace := [] }

/-- Lines 222-254 and on of `WriteString`: the branch `try_write`. -/
def WriteString.fast (sb : StringBytes) (env : StreamEnv) (enc : encoding) (self : StreamBase)
    (string : JSString) (send_handle_obj : Option HandleObject) (storage_size : Nat) : Result :=
  let stack_storage := sb.Write string enc storage_size
  let data_size := stack_storage.length
  let buf := uv_buf_init (Ptr.stack_storage 0) data_size
  let out := env.DoTryWrite stack_storage buf 1
  let synchronously_written :=
    if out.count = 0 then data_size else size_sub data_size out.buf.len
  let self1 :=
    { self with bytes_written_ := size_add self.bytes_written_ synchronously_written }
  let ev := Event.DoTryWrite stack_storage buf 1 out
  if out.err ≠ 0 ∨ out.count = 0 then
    let res : StreamWriteResult :=
      { async := false, err := out.err, wrap := none, bytes := data_size }
    { ret := Outcome.ret out.err
      stream := self1.SetWriteResult res
      trace := [ev, Event.SetWriteResult res] }
  else if out.count = 1 then
    let data : AllocatedBuffer :=
      { size := out.buf.len, bytes := readStack stack_storage out.buf }
    let r := WriteString.issue env self1 send_handle_obj storage_size data out.buf.len
      synchronously_written
    { r with trace := [ev, Event.AllocateManaged out.buf.len] ++ r.trace }
  else
    { ret := Outcome.abort, stream := self1, trace := [ev] }

/-- Lines 255-263 and on of `WriteString`: the branch without `try_write`. -/
def WriteString.slow (sb : StringBytes) (env : StreamEnv) (enc : encoding) (self : StreamBase)
    (string : JSString) (send_handle_obj : Option HandleObject) (storage_size : Nat) : Result :=
  let written := sb.Write string enc storage_size
  let data : AllocatedBuffer := { size := storage_size, bytes := written }
  let r := WriteString.issue env self send_handle_obj storage_size data written.length 0
  { r with trace := [Event.AllocateManaged storage_size] ++ r.trace }

/-- The method `StreamBase::WriteString<enc>` (lines 187-291), from the string
and the send handle object on (`args[0]` and `args[1]` pass their `CHECK`s). -/
def WriteString (sb : StringBytes) (env : StreamEnv) (enc : encoding) (self : StreamBase)
    (string : JSString) (send_handle_obj : Option HandleObject) : Result :=
  match computeStorageSize sb string enc with
  | none => { ret := Outcome.ret 0, stream := self, trace := [] }
  | some storage_size =>
    if storage_size > INT_MAX then
      { ret := Outcome.ret UV_ENOBUFS, stream := self, trace := [] }
    else
      let try_write : Bool :=
        decide (storage_size ≤ STACK_STORAGE_SIZE) &&
          (!env.IsIPCPipe || send_handle_obj.isNone)
      if try_write then
        WriteString.fast sb env enc self string send_handle_obj storage_size
      else
        WriteString.slow sb env enc self string send_handle_obj storage_size

/-- A JS value in the `chunks` array. -/
inductive Value where
  | undefined
  | buffer (bytes : List Byte)
  | string (s : JSString)
  deriving DecidableEq, Repr

/-- The test `Buffer::HasInstance(chunk)`. -/
def Buffer.HasInstance : Value → Bool
  | Value.buffer _ => true
  | _ => false

/-- The bytes between `Buffer::Data(chunk)` and `Buffer::Data(chunk) +
Buffer::Length(chunk)`; `none` when the value is no buffer (the accessors then
fail a `CHECK`). -/
def Buffer.Data : Value → Option (List Byte)
  | Value.buffer bytes => some bytes
  | _ => none

/-- The conversions of JS values that `Writev` asks of V8 and of node, a
parameter: `chunk->ToString(...)` and `ParseEncoding(isolate, value)`. -/
structure Host where
  ToString : Value → JSString
  ParseEncoding : Value → encoding

/-- The access `chunks->Get(env->context(), i).ToLocalChecked()`. -/
def Get (chunks : List Value) (i : Nat) : Value :=
  chunks.getD i Value.undefined

/-- The sizing loop of `Writev` (lines 89-108) over the indices still to visit,
from the current `storage_size`; `none` stands for `return 0`. -/
def Writev.sizing (host : Host) (sb : StringBytes) (chunks : List Value) :
    List Nat → Nat → Option Nat
  | [], storage_size => some storage_size
  | i :: rest, storage_size =>
    let chunk := Get chunks (i * 2)
    if Buffer.HasInstance chunk then
      Writev.sizing host sb chunks rest storage_size
    else
      let string := host.ToString chunk
      let enc := host.ParseEncoding (Get chunks (i * 2 + 1))
      match computeStorageSize sb string enc with
      | none => none
      | some chunk_size =>
        Writev.sizing host sb chunks rest (size_add storage_size chunk_size)

/-- The loop of lines 113-117 (all entries are buffers): the descriptors
`bufs[i]`, or `none` when an entry is no buffer. -/
def Writev.collect (chunks : List Value) : List Nat → Option (List uv_buf_t)
  | [] => some []
  | i :: rest =>
    match Buffer.Data (Get chunks i) with
    | none => none
    | some bytes =>
      match Writev.collect chunks rest with
      | none => none
      | some bufs => some ({ base := Ptr.chunk i, len := bytes.length } :: bufs)

/-- The variables of the fill loop: `offset`, the shared `storage`, and the
descriptors `bufs[0]`, ..., `bufs[i - 1]` written so far. -/
structure FillState where
  offset : Nat
  storage : AllocatedBuffer
  bufs : List uv_buf_t
  deriving DecidableEq, Repr

/-- The fill loop of `Writev` (lines 126-152) over the indices still to visit;
`none` stands for a failed `CHECK_LE(offset, storage_size)`. -/
def Writev.fill (host : Host) (sb : StringBytes) (chunks : List Value) (storage_size : Nat) :
    List Nat → FillState → Option FillState
  | [], st => some st
  | i :: rest, st =>
    let chunk := Get chunks (i * 2)
    match Buffer.Data chunk with
    | some bytes =>
      Writev.fill host sb chunks storage_size rest
        { st with bufs := st.bufs ++ [{ base := Ptr.chunk (i * 2), len := bytes.length }] }
    | none =>
      if st.offset ≤ storage_size then
        let str_size := size_sub st.storage.size st.offset
        let string := host.ToString chunk
        let enc := host.ParseEncoding (Get chunks (i * 2 + 1))
        let written := sb.Write string enc str_size
        Writev.fill host sb chunks storage_size rest
          { offset := size_add st.offset written.length
            storage := { st.storage with bytes := st.storage.bytes.take st.offset ++ written }
            bufs := st.bufs ++ [{ base := Ptr.storage st.offset, len := written.length }] }
      else
        none

/-- The bytes a descriptor of `Writev` designates: part of a buffer of the
array, or part of the shared storage. -/
def deref (chunks : List Value) (storage : AllocatedBuffer) (b : uv_buf_t) : List Byte :=
  match b.base with
  | Ptr.chunk i => ((Buffer.Data (Get chunks i)).getD []).take b.len
  | Ptr.storage off => (storage.bytes.drop off).take b.len
  | _ => []

/-- Lines 155-160 of `Writev`: the call of `Write` and the report. -/
def Writev.issue (env : StreamEnv) (self : StreamBase) (chunks : List Value)
    (storage_size : Nat) (storage : AllocatedBuffer) (bufs : List uv_buf_t) : Result :=
  let payload := bufs.map (deref chunks storage)
  let w := env.Write bufs payload none
  let self1 := { self with bytes_written_ := size_add self.bytes_written_ w.added }
  let res := w.res
  { ret := Outcome.ret res.err
    stream := self1.SetWriteResult res
    trace := [Event.Write bufs payload none, Event.SetWriteResult res] ++
      (match res.wrap with
        | some wrap =>
          if storage_size > 0 then [Event.SetAllocatedStorage wrap storage] else []
        | none => []) }

/-- The method `StreamBase::Writev` (lines 66-161), from the array `chunks` and
the flag `all_buffers` on (`args[0]` and `args[1]` pass their `CHECK`s). -/
def Writev (host : Host) (sb : StringBytes) (env : StreamEnv) (self : StreamBase)
    (chunks : List Value) (all_buffers : Bool) : Result :=
  let count := if all_buffers then chunks.length else chunks.length >>> 1
  if all_buffers then
    match Writev.collect chunks (List.range count) with
    | none => { ret := Outcome.abort, stream := self, trace := [] }
    | some bufs => Writev.issue env self chunks 0 { size := 0, bytes := [] } bufs
  else
    match Writev.sizing host sb chunks (List.range count) 0 with
    | none => { ret := Outcome.ret 0, stream := self, trace := [] }
    | some storage_size =>
      if storage_size > INT_MAX then
        { ret := Outcome.ret UV_ENOBUFS, stream := self, trace := [] }
      else
        let storage : AllocatedBuffer :=
          if storage_size > 0 then { size := storage_size, bytes := [] }
          else { size := 0, bytes := [] }
        let alloc : List Event :=
          if storage_size > 0 then [Event.AllocateManaged storage_size] else []
        match Writev.fill host sb chunks storage_size (List.range count)
            { offset := 0, storage := storage, bufs := [] } with
        | none => { ret := Outcome.abort, stream := self, trace := alloc }
        | some st =>
          let r := Writev.issue env self chunks storage_size st.storage st.bufs
          { r with trace := alloc ++ r.trace }

/-- The method `StreamBase::CallJSOnreadMethod` (lines 294-321); `ab` is `none`
for an empty `Local<ArrayBuffer>`. The `DCHECK`s are compiled out. -/
def StreamBase.CallJSOnreadMethod (self : StreamBase) (nread : Int)
    (ab : Option (List Byte)) (offset : Nat) : Result :=
  let self1 := { self with kReadBytesOrError := nread, kArrayBufferOffset := offset }
  let ev := Event.CallJSOnreadMethod nread ab offset
  match self.async_wrap with
  | none => { ret := Outcome.abort, stream := self1, trace := [ev] }
  | some wrap =>
    if wrap.onread_is_function then
      { ret := Outcome.done, stream := self1, trace := [ev, Event.MakeCallback ab] }
    else
      { ret := Outcome.abort, stream := self1, trace := [ev] }

/-- The method `EmitToJSStreamListener::OnStreamRead` (lines 454-472) of a
listener attached to the stream `stream` (so `CHECK_NOT_NULL(stream_)` passes);
`buf` is the buffer of the read. The two-argument calls of `CallJSOnreadMethod`
leave `offset` to its default, 0. -/
def EmitToJSStreamListener.OnStreamRead (stream : StreamBase) (nread : Int)
    (buf : AllocatedBuffer) : Result :=
  if nread ≤ 0 then
    if nread < 0 then
      stream.CallJSOnreadMethod nread none 0
    else
      { ret := Outcome.done, stream := stream, trace := [] }
  else if nread.toNat ≤ buf.size then
    let resized : AllocatedBuffer := { size := nread.toNat, bytes := buf.bytes.take nread.toNat }
    stream.CallJSOnreadMethod nread (some resized.bytes) 0
  else
    { ret := Outcome.abort, stream := stream, trace := [] }

/-! ## Reading a trace -/

/-- The sum of the byte counts reported through `SetWriteResult`. -/
def reportedBytes : List Event → Nat
  | [] => 0
  | Event.SetWriteResult res :: rest => res.bytes + reportedBytes rest
  | _ :: rest => reportedBytes rest

/-- The sum, over the calls of `DoTryWrite` that returned an error and left
`count` non-zero, of the length `buf.len` they left unsent. -/
def unsentAfterFailedTry : List Event → Nat
  | [] => 0
  | Event.DoTryWrite _ _ _ out :: rest =>
    (if out.err ≠ 0 ∧ out.count ≠ 0 then out.buf.len else 0) + unsentAfterFailedTry rest
  | _ :: rest => unsentAfterFailedTry rest

/-- The sizes passed to `AllocateManaged`, in order. -/
def allocations : List Event → List Nat
  | [] => []
  | Event.AllocateManaged size :: rest => size :: allocations rest
  | _ :: rest => allocations rest

/-- The calls of `Write`, in order: descriptors, designated bytes, send handle. -/
def writeCalls : List Event → List (List uv_buf_t × List (List Byte) × Option Nat)
  | [] => []
  | Event.Write bufs payload h :: rest => (bufs, payload, h) :: writeCalls rest
  | _ :: rest => writeCalls rest

/-- The calls of `DoTryWrite`, in order: the descriptor and the count passed. -/
def tryWriteCalls : List Event → List (uv_buf_t × Nat)
  | [] => []
  | Event.DoTryWrite _ buf count _ :: rest => (buf, count) :: tryWriteCalls rest
  | _ :: rest => tryWriteCalls rest

/-- The calls of `CallJSOnreadMethod`, in order. -/
def onreadCalls : List Event → List (Int × Option (List Byte) × Nat)
  | [] => []
  | Event.CallJSOnreadMethod nread ab offset :: rest => (nread, ab, offset) :: onreadCalls rest
  | _ :: rest => onreadCalls rest

/-- The slices `(offset, length)` of the shared storage that a list of
descriptors designates, in order. -/
def textSlices : List uv_buf_t → List (Nat × Nat)
  | [] => []
  | b :: rest =>
    match b.base with
    | Ptr.storage off => (off, b.len) :: textSlices rest
    | _ => textSlices rest

/-- Slices laid out one after the other from `start` on, without gap: each
slice begins where the one before it ends. -/
def laidOutFrom : Nat → List (Nat × Nat) → Prop
  | _, [] => True
  | start, sl :: rest => sl.1 = start ∧ laidOutFrom (start + sl.2) rest

/-! ## Sequences of calls -/

/-- One call of `WriteString`: the template argument, the JS arguments, and the
codec and stream it runs against. -/
structure WriteStringCall where
  sb : StringBytes
  env : StreamEnv
  enc : encoding
  string : JSString
  send_handle_obj : Option HandleObject

/-- A sequence of `WriteString` calls on one stream: the stream afterwards and
the trace of all calls. A call that fails a `CHECK` ends the sequence. -/
def writeStrings : List WriteStringCall → StreamBase → StreamBase × List Event
  | [], self => (self, [])
  | c :: rest, self =>
    let r := WriteString c.sb c.env c.enc self c.string c.send_handle_obj
    match r.ret with
    | Outcome.abort => (r.stream, r.trace)
    | _ => ((writeStrings rest r.stream).1, r.trace ++ (writeStrings rest r.stream).2)

/-- The contract of the collaborators of one `WriteString` call: the codec never
stores more than `buflen` bytes; `DoTryWrite`, called with one buffer, leaves
`count` at most 1 and, when it leaves `count` non-zero, a length `buf.len` no
larger than before; `Write` adds to `bytes_written_` the byte count it reports. -/
def WellBehaved (c : WriteStringCall) : Prop :=
  (∀ buflen, (c.sb.Write c.string c.enc buflen).length ≤ buflen) ∧
  (∀ stack buf, (c.env.DoTryWrite stack buf 1).count ≤ 1) ∧
  (∀ stack buf, (c.env.DoTryWrite stack buf 1).count ≠ 0 →
    (c.env.DoTryWrite stack buf 1).buf.len ≤ buf.len) ∧
  (∀ bufs payload h, (c.env.Write bufs payload h).added = (c.env.Write bufs payload h).res.bytes)

/-- The required encoded size of a text, in the words of the sizing rule (4.2):
for UTF-8, the encoding with the large worst-case multiplier, and an input
longer than 65535 code units it is the true size `StringBytes::Size`; for any
other encoding or a shorter input it is the worst-case bound
`StringBytes::StorageSize`. `none` when that computation fails. -/
def requiredEncodedSize (sb : StringBytes) (string : JSString) (enc : encoding) : Option Nat :=
  if enc = encoding.UTF8 ∧ string.Length > 65535 then sb.Size string enc
  else sb.StorageSize string enc

/-- The required size of entry `i` of a mixed `chunks` array, in the words of
the sizing pass (4.5): zero for a buffer entry, the required encoded size (4.2)
for a text entry. -/
def requiredSize (host : Host) (sb : StringBytes) (chunks : List Value) (i : Nat) : Option Nat :=
  if Buffer.HasInstance (Get chunks (i * 2)) then some 0
  else requiredEncodedSize sb (host.ToString (Get chunks (i * 2)))
    (host.ParseEncoding (Get chunks (i * 2 + 1)))

/-- The sum of the required sizes of the entries of a mixed `chunks` array, as
a natural number; `none` when some size computation fails. -/
def requiredTotal (host : Host) (sb : StringBytes) (chunks : List Value) :
    List Nat → Option Nat
  | [] => some 0
  | i :: rest =>
    match requiredSize host sb chunks i, requiredTotal host sb chunks rest with
    | some a, some b => some (a + b)
    | _, _ => none

/-! ## Concrete collaborators for closed examples -/

/-- An example codec, UTF-8 bytes of one code unit (surrogates are not paired). -/
def exampleUtf8 (u : Nat) : List Byte :=
  if u < 128 then [u]
  else if u < 2048 then [192 + u / 64, 128 + u % 64]
  else [224 + u / 4096, 128 + u / 64 % 64, 128 + u % 64]

/-- An example codec, the number of UTF-8 bytes of one code unit. -/
def exampleUtf8Width (u : Nat) : Nat :=
  if u < 128 then 1 else if u < 2048 then 2 else 3

/-- An example codec, the bytes of a whole string: UTF-8, two bytes per unit
for UCS2, one byte per unit otherwise. -/
def exampleEncode (s : JSString) : encoding → List Byte
  | encoding.UTF8 => (s.units.map exampleUtf8).flatten
  | encoding.BUFFER => (s.units.map exampleUtf8).flatten
  | encoding.UCS2 => (s.units.map fun u => [u % 256, u / 256 % 256]).flatten
  | _ => s.units.map fun u => u % 256

/-- An example codec in the shape of node's `StringBytes` for the four encodings
of `WriteString`: `StorageSize` is three bytes per unit for UTF-8, two for UCS2,
one for ASCII and LATIN1; `Size` is the exact length; `Write` stores the
encoding, cut at `buflen`. -/
def exampleStringBytes : StringBytes where
  Size := fun s enc =>
    match enc with
    | encoding.UTF8 => some (s.units.map exampleUtf8Width).sum
    | encoding.BUFFER => some (s.units.map exampleUtf8Width).sum
    | encoding.UCS2 => some (2 * s.Length)
    | _ => some s.Length
  StorageSize := fun s enc =>
    match enc with
    | encoding.UTF8 => some (3 * s.Length)
    | encoding.BUFFER => some (3 * s.Length)
    | encoding.UCS2 => some (2 * s.Length)
    | _ => some s.Length
  Write := fun s enc buflen => (exampleEncode s enc).take buflen

/-- The JS string "hello". -/
def hello : JSString := { units := [104, 101, 108, 108, 111] }

/-- The JS string "ab". -/
def ab : JSString := { units := [97, 98] }

/-- The JS string "ascii", an encoding name. -/
def asciiName : JSString := { units := [97, 115, 99, 105, 105] }

/-- The JS string "utf8", an encoding name. -/
def utf8Name : JSString := { units := [117, 116, 102, 56] }

/-- The JS string "buffer", the encoding name that accompanies a buffer entry. -/
def bufferName : JSString := { units := [98, 117, 102, 102, 101, 114] }

/-- A JS string of `n` letters "a". -/
def manyA (n : Nat) : JSString := { units := List.replicate n 97 }

/-- An example host: a string converts to itself, and the encoding names
"ascii", "utf8" and "buffer" are parsed; anything else gives LATIN1. -/
def exampleHost : Host where
  ToString := fun v =>
    match v with
    | Value.string s => s
    | Value.buffer bytes => { units := bytes }
    | Value.undefined => { units := [117, 110, 100, 101, 102, 105, 110, 101, 100] }
  ParseEncoding := fun v =>
    if v = Value.string asciiName then encoding.ASCII
    else if v = Value.string utf8Name then encoding.UTF8
    else if v = Value.string bufferName then encoding.BUFFER
    else LATIN1

/-- The pointer `p + n`. -/
def Ptr.add : Ptr → Nat → Ptr
  | Ptr.null, _ => Ptr.null
  | Ptr.stack_storage off, n => Ptr.stack_storage (off + n)
  | Ptr.storage off, n => Ptr.storage (off + n)
  | Ptr.chunk i, _ => Ptr.chunk i

/-- An example `DoTryWrite` whose transport takes `n` bytes: with the whole
buffer sent it sets `count` to 0, otherwise it advances `buf` past the bytes
sent and leaves `count`. -/
def tryWriteTaking (n : Nat) (_stack : List Byte) (buf : uv_buf_t) (count : Nat) :
    TryWriteOutcome :=
  if buf.len ≤ n then { err := 0, count := 0, buf := buf }
  else { err := 0, count := count, buf := { base := buf.base.add n, len := buf.len - n } }

/-- An example `DoTryWrite` whose transport fails with the error `err` and sends
nothing: `bufs` and `count` stay as they were. -/
def tryWriteFailing (err : Int) (_stack : List Byte) (buf : uv_buf_t) (count : Nat) :
    TryWriteOutcome :=
  { err := err, count := count, buf := buf }

/-- An example `Write`: it queues the buffers on request 7, reports their total
length and adds it to `bytes_written_`. -/
def exampleWrite (bufs : List uv_buf_t) (_payload : List (List Byte)) (_h : Option Nat) :
    WriteOutcome :=
  { res := { async := true, err := 0, wrap := some 7, bytes := (bufs.map fun b => b.len).sum }
    added := (bufs.map fun b => b.len).sum }

/-- An example stream whose transport takes `n` bytes at once. -/
def streamTaking (n : Nat) : StreamEnv :=
  { IsIPCPipe := StreamBase.IsIPCPipe, DoTryWrite := tryWriteTaking n, Write := exampleWrite }

/-- An example stream whose `DoTryWrite` fails with `err`. -/
def streamFailing (err : Int) : StreamEnv :=
  { IsIPCPipe := StreamBase.IsIPCPipe, DoTryWrite := tryWriteFailing err, Write := exampleWrite }

/-- An example stream with the default `DoTryWrite` and `IsIPCPipe`. -/
def streamDefault : StreamEnv :=
  { IsIPCPipe := StreamBase.IsIPCPipe, DoTryWrite := StreamResource.DoTryWrite,
    Write := exampleWrite }

/-- A fresh stream object. -/
def freshStream : StreamBase :=
  { bytes_written_ := 0, kBytesWritten := 0, kLastWriteWasAsync := false,
    kReadBytesOrError := 0, kArrayBufferOffset := 0, async_wrap := some { onread_is_function := true } }

/-- The array of the `writev` scenario: buffers of 10 and 20 bytes and the
string "ab" in ASCII, each followed by its encoding name. -/
def mixedChunks : List Value :=
  [Value.buffer (List.replicate 10 0), Value.string bufferName,
    Value.buffer (List.replicate 20 1), Value.string bufferName,
    Value.string ab, Value.string asciiName]

/-- An array with one text entry: `n` letters "a" in UTF-8. -/
def utf8Chunks (n : Nat) : List Value :=
  [Value.string (manyA n), Value.string utf8Name]

/-- An array with two text entries, each `n` letters "a" in UTF-8. -/
def twoUtf8Chunks (n : Nat) : List Value :=
  [Value.string (manyA n), Value.string utf8Name,
    Value.string (manyA n), Value.string utf8Name]

/-- An array with two text entries around a buffer: "hello" in ASCII, a buffer
of 3 bytes, "ab" in UTF-8. -/
def twoTextChunks : List Value :=
  [Value.string hello, Value.string asciiName,
    Value.buffer [1, 2, 3], Value.string bufferName,
    Value.string ab, Value.string utf8Name]

/-- The call `WriteString<ASCII>("hello")` without send handle, against the
example codec and the stream `env`. -/
def helloCall (env : StreamEnv) : WriteStringCall :=
  { sb := exampleStringBytes, env := env, enc := encoding.ASCII, string := hello,
    send_handle_obj := none }

/-- The outcome of the `DoTryWrite` call of the fast path of `WriteString`
(line 231): the stack buffer holds the encoding, one descriptor covers it. -/
def fastPathTry (sb : StringBytes) (env : StreamEnv) (enc : encoding) (string : JSString)
    (storage_size : Nat) : TryWriteOutcome :=
  env.DoTryWrite (sb.Write string enc storage_size)
    (uv_buf_init (Ptr.stack_storage 0) (sb.Write string enc storage_size).length) 1

/-! ## The example codec on long strings -/

theorem manyA_Length (n : Nat) : (manyA n).Length = n := by
  simp [manyA, JSString.Length]

theorem computeStorageSize_manyA_utf8 (n : Nat) :
    computeStorageSize exampleStringBytes (manyA n) encoding.UTF8 = some (3 * n) := by
  simp [computeStorageSize, exampleStringBytes, manyA_Length]

/-! ## WriteString: the size limit -/

/-- C1: when the computed storage size exceeds `INT_MAX`, `WriteString` returns
`UV_ENOBUFS` with an empty trace (no `DoTryWrite`, no `Write`, no allocation,
no `SetWriteResult`) and an unchanged stream, `bytes_written_` included. -/
theorem WriteString_too_large (sb : StringBytes) (env : StreamEnv) (enc : encoding)
    (self : StreamBase) (string : JSString) (send_handle_obj : Option HandleObject)
    (storage_size : Nat) (hsize : computeStorageSize sb string enc = some storage_size)
    (hbig : storage_size > INT_MAX) :
    WriteString sb env enc self string send_handle_obj =
      { ret := Outcome.ret UV_ENOBUFS, stream := self, trace := [] } := by
  unfold WriteString
  rw [hsize]
  simp [hbig]

/-- C1, at a concrete input: a UTF-8 write of 800000000 letters on the default
stream has storage size 2400000000 and is refused without effect. -/
theorem WriteString_too_large_witness :
    computeStorageSize exampleStringBytes (manyA 800000000) encoding.UTF8 = some 2400000000 ∧
    2400000000 > INT_MAX ∧
    WriteString exampleStringBytes streamDefault encoding.UTF8 freshStream (manyA 800000000) none =
      { ret := Outcome.ret UV_ENOBUFS, stream := freshStream, trace := [] } :=
  ⟨computeStorageSize_manyA_utf8 800000000, by decide,
    WriteString_too_large _ _ _ _ _ _ _ (computeStorageSize_manyA_utf8 800000000) (by decide)⟩

/-! ## WriteString: which branch runs -/

theorem uv_buf_init_of_lt (p : Ptr) (len : Nat) (h : len < 2 ^ 32) :
    uv_buf_init p len = { base := p, len := len } := by
  unfold uv_buf_init
  rw [Nat.mod_eq_of_lt h]

theorem small_le_INT_MAX (n : Nat) (h : n ≤ STACK_STORAGE_SIZE) : ¬ n > INT_MAX := by
  unfold STACK_STORAGE_SIZE at h
  unfold INT_MAX
  omega

theorem WriteString_eq_fast (sb : StringBytes) (env : StreamEnv) (enc : encoding)
    (self : StreamBase) (string : JSString) (send_handle_obj : Option HandleObject)
    (storage_size : Nat) (hsize : computeStorageSize sb string enc = some storage_size)
    (hsmall : storage_size ≤ STACK_STORAGE_SIZE)
    (hhandle : ¬ (env.IsIPCPipe = true ∧ send_handle_obj.isSome = true)) :
    WriteString sb env enc self string send_handle_obj =
      WriteString.fast sb env enc self string send_handle_obj storage_size := by
  have htry : (decide (storage_size ≤ STACK_STORAGE_SIZE) &&
      (!env.IsIPCPipe || send_handle_obj.isNone)) = true := by
    cases hp : env.IsIPCPipe <;> cases send_handle_obj <;> simp_all
  unfold WriteString
  rw [hsize]
  simp only [small_le_INT_MAX storage_size hsmall, htry, if_true, if_false]

theorem WriteString_eq_slow (sb : StringBytes) (env : StreamEnv) (enc : encoding)
    (self : StreamBase) (string : JSString) (send_handle_obj : Option HandleObject)
    (storage_size : Nat) (hsize : computeStorageSize sb string enc = some storage_size)
    (hmax : storage_size ≤ INT_MAX)
    (hslow : STACK_STORAGE_SIZE < storage_size ∨
      (env.IsIPCPipe = true ∧ send_handle_obj.isSome = true)) :
    WriteString sb env enc self string send_handle_obj =
      WriteString.slow sb env enc self string send_handle_obj storage_size := by
  have htry : (decide (storage_size ≤ STACK_STORAGE_SIZE) &&
      (!env.IsIPCPipe || send_handle_obj.isNone)) = false := by
    rcases hslow with h | ⟨h1, h2⟩
    · simp [Nat.not_le.mpr h]
    · cases send_handle_obj <;> simp_all
  unfold WriteString
  rw [hsize]
  simp [Nat.not_lt.mpr hmax, htry]

theorem issue_without_handle (env : StreamEnv) (self : StreamBase)
    (send_handle_obj : Option HandleObject) (storage_size : Nat) (data : AllocatedBuffer)
    (data_size sync : Nat)
    (hhandle : ¬ (env.IsIPCPipe = true ∧ send_handle_obj.isSome = true))
    (hle : data_size ≤ storage_size) :
    WriteString.issue env self send_handle_obj storage_size data data_size sync =
      WriteString.send env self data (uv_buf_init (Ptr.storage 0) data_size) sync none [] := by
  unfold WriteString.issue
  cases hp : env.IsIPCPipe <;> cases send_handle_obj <;> simp_all

/-! ## WriteString: the fast path -/

/-- C2: on the fast path, when `DoTryWrite` returns an error or sets `count` to
0, `WriteString` returns that error at once; its trace is the `DoTryWrite` call
followed by `SetWriteResult { false, err, nullptr, data_size }`, so neither
`Write` nor `AllocateManaged` is called; and when `count` is 0 the counter
`bytes_written_` grows by `data_size`. -/
theorem WriteString_fast_path_immediate (sb : StringBytes) (env : StreamEnv) (enc : encoding)
    (self : StreamBase) (string : JSString) (send_handle_obj : Option HandleObject)
    (storage_size : Nat) (hsize : computeStorageSize sb string enc = some storage_size)
    (hsmall : storage_size ≤ STACK_STORAGE_SIZE)
    (hhandle : ¬ (env.IsIPCPipe = true ∧ send_handle_obj.isSome = true))
    (himm : (fastPathTry sb env enc string storage_size).err ≠ 0 ∨
      (fastPathTry sb env enc string storage_size).count = 0) :
    (WriteString sb env enc self string send_handle_obj).ret =
        Outcome.ret (fastPathTry sb env enc string storage_size).err ∧
    (WriteString sb env enc self string send_handle_obj).trace =
        [Event.DoTryWrite (sb.Write string enc storage_size)
            (uv_buf_init (Ptr.stack_storage 0) (sb.Write string enc storage_size).length) 1
            (fastPathTry sb env enc string storage_size),
          Event.SetWriteResult
            { async := false, err := (fastPathTry sb env enc string storage_size).err,
              wrap := none, bytes := (sb.Write string enc storage_size).length }] ∧
    writeCalls (WriteString sb env enc self string send_handle_obj).trace = [] ∧
    allocations (WriteString sb env enc self string send_handle_obj).trace = [] ∧
    (WriteString sb env enc self string send_handle_obj).stream.kBytesWritten =
        (sb.Write string enc storage_size).length ∧
    (WriteString sb env enc self string send_handle_obj).stream.kLastWriteWasAsync = false ∧
    ((fastPathTry sb env enc string storage_size).count = 0 →
      (WriteString sb env enc self string send_handle_obj).stream.bytes_written_ =
        size_add self.bytes_written_ (sb.Write string enc storage_size).length) := by
  rw [WriteString_eq_fast sb env enc self string send_handle_obj storage_size hsize hsmall hhandle]
  unfold fastPathTry at himm ⊢
  simp only [WriteString.fast, himm, if_true]
  refine ⟨trivial, trivial, rfl, rfl, rfl, rfl, ?_⟩
  intro h0
  simp [StreamBase.SetWriteResult, h0]

/-- C2, at a concrete input: "hello" in ASCII on a stream whose `DoTryWrite`
takes all 5 bytes returns 0, reports 5 bytes, allocates nothing, does not call
`Write`, and takes `bytes_written_` from 0 to 5. -/
theorem WriteString_fast_path_immediate_witness :
    computeStorageSize exampleStringBytes hello encoding.ASCII = some 5 ∧
    (WriteString exampleStringBytes (streamTaking 5) encoding.ASCII freshStream hello none).ret =
      Outcome.ret 0 ∧
    writeCalls
      (WriteString exampleStringBytes (streamTaking 5) encoding.ASCII freshStream hello none).trace
      = [] ∧
    allocations
      (WriteString exampleStringBytes (streamTaking 5) encoding.ASCII freshStream hello none).trace
      = [] ∧
    (WriteString exampleStringBytes (streamTaking 5) encoding.ASCII freshStream hello
      none).stream.kBytesWritten = 5 ∧
    (WriteString exampleStringBytes (streamTaking 5) encoding.ASCII freshStream hello
      none).stream.bytes_written_ = 5 := by
  have h := WriteString_fast_path_immediate exampleStringBytes (streamTaking 5) encoding.ASCII
    freshStream hello none 5 (by decide) (by decide) (by decide) (by decide)
  exact ⟨by decide, h.1, h.2.2.1, h.2.2.2.1, h.2.2.2.2.1, h.2.2.2.2.2.2 (by decide)⟩

/-- C4: on the fast path, when `DoTryWrite` returns 0 with `count = 1` and
leaves `buf` on the unsent tail of `r = buf.len` bytes, `WriteString` allocates
exactly `r` bytes, fills them with the last `r` bytes of the encoding, calls
`Write` once with that single buffer and no send handle, passes
`CHECK_LE(data_size, storage_size)`, and reports the byte count of `Write` plus
the `data_size - r` bytes sent synchronously. -/
theorem WriteString_fast_path_remainder (sb : StringBytes) (env : StreamEnv) (enc : encoding)
    (self : StreamBase) (string : JSString) (send_handle_obj : Option HandleObject)
    (storage_size : Nat) (stack : List Byte) (out : TryWriteOutcome) (w : WriteOutcome)
    (hsize : computeStorageSize sb string enc = some storage_size)
    (hsmall : storage_size ≤ STACK_STORAGE_SIZE)
    (hhandle : ¬ (env.IsIPCPipe = true ∧ send_handle_obj.isSome = true))
    (hstack : sb.Write string enc storage_size = stack)
    (hfit : stack.length ≤ storage_size)
    (hout : fastPathTry sb env enc string storage_size = out)
    (herr : out.err = 0) (hcount : out.count = 1)
    (hlen : out.buf.len ≤ stack.length)
    (hbase : out.buf.base = Ptr.stack_storage (stack.length - out.buf.len))
    (hw : env.Write [{ base := Ptr.storage 0, len := out.buf.len }]
      [stack.drop (stack.length - out.buf.len)] none = w) :
    (WriteString sb env enc self string send_handle_obj).ret = Outcome.ret w.res.err ∧
    (WriteString sb env enc self string send_handle_obj).trace =
      [Event.DoTryWrite stack (uv_buf_init (Ptr.stack_storage 0) stack.length) 1 out,
        Event.AllocateManaged out.buf.len,
        Event.Write [{ base := Ptr.storage 0, len := out.buf.len }]
          [stack.drop (stack.length - out.buf.len)] none,
        Event.SetWriteResult
          { w.res with bytes := size_add w.res.bytes (stack.length - out.buf.len) }] ++
      (match w.res.wrap with
        | some wrap =>
          [Event.SetAllocatedStorage wrap
            { size := out.buf.len, bytes := stack.drop (stack.length - out.buf.len) }]
        | none => []) ∧
    allocations (WriteString sb env enc self string send_handle_obj).trace = [out.buf.len] ∧
    writeCalls (WriteString sb env enc self string send_handle_obj).trace =
      [([{ base := Ptr.storage 0, len := out.buf.len }],
        [stack.drop (stack.length - out.buf.len)], none)] ∧
    (stack.drop (stack.length - out.buf.len)).length = out.buf.len ∧
    (WriteString sb env enc self string send_handle_obj).stream.kBytesWritten =
      size_add w.res.bytes (stack.length - out.buf.len) ∧
    (w.res.bytes + (stack.length - out.buf.len) < SIZE_MOD →
      (WriteString sb env enc self string send_handle_obj).stream.kBytesWritten =
        w.res.bytes + (stack.length - out.buf.len)) := by
  have hr32 : out.buf.len < 2 ^ 32 := by
    unfold STACK_STORAGE_SIZE at hsmall
    omega
  have hsub : size_sub stack.length out.buf.len = stack.length - out.buf.len := by
    unfold size_sub SIZE_MOD
    unfold STACK_STORAGE_SIZE at hsmall
    omega
  have htail : (stack.drop (stack.length - out.buf.len)).length = out.buf.len := by
    rw [List.length_drop]
    omega
  have htake : (stack.drop (stack.length - out.buf.len)).take out.buf.len =
      stack.drop (stack.length - out.buf.len) := by
    rw [List.take_of_length_le]
    rw [htail]
  have hread : readStack stack out.buf = stack.drop (stack.length - out.buf.len) := by
    unfold readStack
    rw [hbase]
    exact htake
  unfold fastPathTry at hout
  rw [hstack] at hout
  have hkey : WriteString sb env enc self string send_handle_obj =
      { ret := Outcome.ret w.res.err
        stream := StreamBase.SetWriteResult
          { self with bytes_written_ :=
              size_add (size_add self.bytes_written_ (stack.length - out.buf.len)) w.added }
          { w.res with bytes := size_add w.res.bytes (stack.length - out.buf.len) }
        trace :=
          [Event.DoTryWrite stack (uv_buf_init (Ptr.stack_storage 0) stack.length) 1 out,
            Event.AllocateManaged out.buf.len,
            Event.Write [{ base := Ptr.storage 0, len := out.buf.len }]
              [stack.drop (stack.length - out.buf.len)] none,
            Event.SetWriteResult
              { w.res with bytes := size_add w.res.bytes (stack.length - out.buf.len) }] ++
          (match w.res.wrap with
            | some wrap =>
              [Event.SetAllocatedStorage wrap
                { size := out.buf.len, bytes := stack.drop (stack.length - out.buf.len) }]
            | none => []) } := by
    rw [WriteString_eq_fast sb env enc self string send_handle_obj storage_size hsize hsmall
      hhandle]
    simp only [WriteString.fast, hstack, hout, herr, hcount, ne_eq, not_true_eq_false,
      false_or, one_ne_zero, if_false, if_true]
    rw [issue_without_handle env _ send_handle_obj storage_size _ _ _ hhandle (le_trans hlen hfit)]
    rw [uv_buf_init_of_lt _ _ hr32]
    simp only [WriteString.send, hread, htake, hw, hsub]
    simp
  rw [hkey]
  refine ⟨rfl, rfl, ?_, ?_, htail, rfl, ?_⟩
  · cases hwrap : w.res.wrap <;> simp [allocations]
  · cases hwrap : w.res.wrap <;> simp [writeCalls]
  · intro hlt
    simp only [StreamBase.SetWriteResult]
    unfold size_add
    exact Nat.mod_eq_of_lt hlt

/-- C4, at a concrete input: "hello" in ASCII on a stream whose `DoTryWrite`
takes 2 bytes: 3 bytes are allocated and hold "llo", `Write` is called once
with that buffer, and 3 + 2 = 5 bytes are reported. -/
theorem WriteString_fast_path_remainder_witness :
    computeStorageSize exampleStringBytes hello encoding.ASCII = some 5 ∧
    fastPathTry exampleStringBytes (streamTaking 2) encoding.ASCII hello 5 =
      { err := 0, count := 1, buf := { base := Ptr.stack_storage 2, len := 3 } } ∧
    (WriteString exampleStringBytes (streamTaking 2) encoding.ASCII freshStream hello none).ret =
      Outcome.ret 0 ∧
    allocations
      (WriteString exampleStringBytes (streamTaking 2) encoding.ASCII freshStream hello none).trace
      = [3] ∧
    writeCalls
      (WriteString exampleStringBytes (streamTaking 2) encoding.ASCII freshStream hello none).trace
      = [([{ base := Ptr.storage 0, len := 3 }], [[108, 108, 111]], none)] ∧
    (WriteString exampleStringBytes (streamTaking 2) encoding.ASCII freshStream hello
      none).stream.kBytesWritten = 5 := by
  have h := WriteString_fast_path_remainder exampleStringBytes (streamTaking 2) encoding.ASCII
    freshStream hello none 5 [104, 101, 108, 108, 111]
    { err := 0, count := 1, buf := { base := Ptr.stack_storage 2, len := 3 } }
    { res := { async := true, err := 0, wrap := some 7, bytes := 3 }, added := 3 }
    (by decide) (by decide) (by decide) (by decide) (by decide) (by decide) rfl rfl
    (by decide) (by decide) (by decide)
  exact ⟨by decide, by decide, h.1, h.2.2.1, h.2.2.2.1, h.2.2.2.2.2.2 (by decide)⟩

/-- C10: a write whose storage size is 0 is not cut short. On a stream without
IPC handle to send, `DoTryWrite` is called once with one buffer of length 0;
when it returns 0 and leaves `count = 1` and the length 0, `WriteString`
allocates 0 bytes and calls `Write` once with one zero-length buffer; its own
update of `bytes_written_` adds 0, so the counter moves by what `Write` adds. -/
theorem WriteString_zero_length (sb : StringBytes) (env : StreamEnv) (enc : encoding)
    (self : StreamBase) (string : JSString) (send_handle_obj : Option HandleObject)
    (out : TryWriteOutcome) (w : WriteOutcome)
    (hsize : computeStorageSize sb string enc = some 0)
    (hhandle : ¬ (env.IsIPCPipe = true ∧ send_handle_obj.isSome = true))
    (hfit : (sb.Write string enc 0).length ≤ 0)
    (hout : env.DoTryWrite [] { base := Ptr.stack_storage 0, len := 0 } 1 = out)
    (herr : out.err = 0) (hcount : out.count = 1) (hlen : out.buf.len = 0)
    (hw : env.Write [{ base := Ptr.storage 0, len := 0 }] [[]] none = w) :
    tryWriteCalls (WriteString sb env enc self string send_handle_obj).trace =
      [({ base := Ptr.stack_storage 0, len := 0 }, 1)] ∧
    allocations (WriteString sb env enc self string send_handle_obj).trace = [0] ∧
    writeCalls (WriteString sb env enc self string send_handle_obj).trace =
      [([{ base := Ptr.storage 0, len := 0 }], [[]], none)] ∧
    (WriteString sb env enc self string send_handle_obj).ret = Outcome.ret w.res.err ∧
    (WriteString sb env enc self string send_handle_obj).stream.bytes_written_ =
      size_add self.bytes_written_ w.added ∧
    (WriteString sb env enc self string send_handle_obj).stream.kBytesWritten =
      size_add w.res.bytes 0 := by
  have hnil : sb.Write string enc 0 = [] := List.length_eq_zero.mp (Nat.le_zero.mp hfit)
  have hsub : size_sub 0 0 = 0 := by decide
  have hkey : WriteString sb env enc self string send_handle_obj =
      { ret := Outcome.ret w.res.err
        stream := StreamBase.SetWriteResult
          { self with bytes_written_ := size_add (size_add self.bytes_written_ 0) w.added }
          { w.res with bytes := size_add w.res.bytes 0 }
        trace :=
          [Event.DoTryWrite [] { base := Ptr.stack_storage 0, len := 0 } 1 out,
            Event.AllocateManaged 0,
            Event.Write [{ base := Ptr.storage 0, len := 0 }] [[]] none,
            Event.SetWriteResult { w.res with bytes := size_add w.res.bytes 0 }] ++
          (match w.res.wrap with
            | some wrap => [Event.SetAllocatedStorage wrap { size := 0, bytes := [] }]
            | none => []) } := by
    rw [WriteString_eq_fast sb env enc self string send_handle_obj 0 hsize (by decide) hhandle]
    have h0 : uv_buf_init (Ptr.stack_storage 0) 0 = { base := Ptr.stack_storage 0, len := 0 } :=
      uv_buf_init_of_lt _ _ (by decide)
    simp only [WriteString.fast, hnil, List.length_nil, h0, hout, herr, hcount, hlen, ne_eq,
      not_true_eq_false, false_or, one_ne_zero, if_false, if_true]
    rw [issue_without_handle env _ send_handle_obj 0 _ _ _ hhandle (le_refl 0)]
    rw [uv_buf_init_of_lt _ _ (by decide)]
    have hread : readStack [] out.buf = [] := by
      unfold readStack
      cases out.buf.base <;> simp
    simp only [WriteString.send, hsub, List.take_zero, hw, hread]
    simp
  rw [hkey]
  refine ⟨?_, ?_, ?_, rfl, ?_, rfl⟩
  · cases hwrap : w.res.wrap <;> simp [tryWriteCalls]
  · cases hwrap : w.res.wrap <;> simp [allocations]
  · cases hwrap : w.res.wrap <;> simp [writeCalls]
  · simp [StreamBase.SetWriteResult, size_add]

/-- C10, at a concrete input: the empty string in ASCII on a stream with the
default `DoTryWrite`. -/
theorem WriteString_zero_length_witness :
    computeStorageSize exampleStringBytes { units := [] } encoding.ASCII = some 0 ∧
    StreamResource.DoTryWrite [] { base := Ptr.stack_storage 0, len := 0 } 1 =
      { err := 0, count := 1, buf := { base := Ptr.stack_storage 0, len := 0 } } ∧
    tryWriteCalls (WriteString exampleStringBytes streamDefault encoding.ASCII freshStream
      { units := [] } none).trace = [({ base := Ptr.stack_storage 0, len := 0 }, 1)] ∧
    allocations (WriteString exampleStringBytes streamDefault encoding.ASCII freshStream
      { units := [] } none).trace = [0] ∧
    writeCalls (WriteString exampleStringBytes streamDefault encoding.ASCII freshStream
      { units := [] } none).trace = [([{ base := Ptr.storage 0, len := 0 }], [[]], none)] := by
  have h := WriteString_zero_length exampleStringBytes streamDefault encoding.ASCII freshStream
    { units := [] } none
    { err := 0, count := 1, buf := { base := Ptr.stack_storage 0, len := 0 } }
    { res := { async := true, err := 0, wrap := some 7, bytes := 0 }, added := 0 }
    (by decide) (by decide) (by decide) (by decide) rfl rfl rfl (by decide)
  exact ⟨by decide, by decide, h.1, h.2.1, h.2.2.1⟩

/-! ## WriteString: accounting of `bytes_written_` -/

theorem SIZE_MOD_eq : SIZE_MOD = 18446744073709551616 := by
  norm_num [SIZE_MOD]

theorem reportedBytes_append (a b : List Event) :
    reportedBytes (a ++ b) = reportedBytes a + reportedBytes b := by
  induction a with
  | nil => simp [reportedBytes]
  | cons e t ih => cases e <;> simp [reportedBytes, ih, Nat.add_assoc]

theorem unsentAfterFailedTry_append (a b : List Event) :
    unsentAfterFailedTry (a ++ b) = unsentAfterFailedTry a + unsentAfterFailedTry b := by
  induction a with
  | nil => simp [unsentAfterFailedTry]
  | cons e t ih => cases e <;> simp [unsentAfterFailedTry, ih, Nat.add_assoc]

theorem send_bytes_written (env : StreamEnv) (self : StreamBase) (data : AllocatedBuffer)
    (buf : uv_buf_t) (sync : Nat) (h : Option Nat) (pre : List Event) :
    (WriteString.send env self data buf sync h pre).stream.bytes_written_ =
      size_add self.bytes_written_ (env.Write [buf] [data.bytes.take buf.len] h).added := by
  simp [WriteString.send, StreamBase.SetWriteResult]

theorem send_reportedBytes (env : StreamEnv) (self : StreamBase) (data : AllocatedBuffer)
    (buf : uv_buf_t) (sync : Nat) (h : Option Nat) (pre : List Event) :
    reportedBytes (WriteString.send env self data buf sync h pre).trace =
      reportedBytes pre +
        size_add (env.Write [buf] [data.bytes.take buf.len] h).res.bytes sync := by
  simp only [WriteString.send, reportedBytes_append]
  cases (env.Write [buf] [data.bytes.take buf.len] h).res.wrap <;> simp [reportedBytes]

theorem send_unsentAfterFailedTry (env : StreamEnv) (self : StreamBase)
    (data : AllocatedBuffer) (buf : uv_buf_t) (sync : Nat) (h : Option Nat)
    (pre : List Event) :
    unsentAfterFailedTry (WriteString.send env self data buf sync h pre).trace =
      unsentAfterFailedTry pre := by
  simp only [WriteString.send, unsentAfterFailedTry_append]
  cases (env.Write [buf] [data.bytes.take buf.len] h).res.wrap <;> simp [unsentAfterFailedTry]

/-- The accounting of `WriteString.issue`, for a `Write` that adds what it
reports: nothing is left unsent by a failed try, and the counter moves from
`self.bytes_written_ + sync` to itself plus the reported bytes, modulo `2 ^ 64`,
when `self.bytes_written_` already counts `sync` or when `sync` is 0. -/
theorem issue_accounting (env : StreamEnv) (self : StreamBase)
    (send_handle_obj : Option HandleObject) (storage_size : Nat) (data : AllocatedBuffer)
    (data_size sync base : Nat)
    (hadds : ∀ bufs payload h, (env.Write bufs payload h).added = (env.Write bufs payload h).res.bytes)
    (hself : self.bytes_written_ % SIZE_MOD = (base + sync) % SIZE_MOD)
    (hsync : sync = 0 ∨ ¬ (env.IsIPCPipe = true ∧ send_handle_obj.isSome = true))
    (hle : data_size ≤ storage_size) :
    unsentAfterFailedTry
      (WriteString.issue env self send_handle_obj storage_size data data_size sync).trace = 0 ∧
    (WriteString.issue env self send_handle_obj storage_size data data_size
        sync).stream.bytes_written_ % SIZE_MOD =
      (base + reportedBytes
        (WriteString.issue env self send_handle_obj storage_size data data_size sync).trace)
        % SIZE_MOD := by
  have hsend : ∀ (buf : uv_buf_t) (h : Option Nat) (pre : List Event),
      reportedBytes pre = 0 → unsentAfterFailedTry pre = 0 →
      unsentAfterFailedTry (WriteString.send env self data buf sync h pre).trace = 0 ∧
      (WriteString.send env self data buf sync h pre).stream.bytes_written_ % SIZE_MOD =
        (base + reportedBytes (WriteString.send env self data buf sync h pre).trace)
          % SIZE_MOD := by
    intro buf h pre hp1 hp2
    rw [send_unsentAfterFailedTry, send_bytes_written, send_reportedBytes, hp1, hp2, hadds]
    refine ⟨rfl, ?_⟩
    unfold size_add
    rw [SIZE_MOD_eq] at hself ⊢
    omega
  unfold WriteString.issue
  simp only [hle, if_true]
  cases hobj : send_handle_obj with
  | none => exact hsend _ _ _ rfl rfl
  | some obj =>
    cases hp : env.IsIPCPipe with
    | false =>
      simp only [Bool.false_eq_true, if_false]
      exact hsend _ _ _ rfl rfl
    | true =>
      simp only [if_true]
      cases hwrap : obj.wrap with
      | none =>
        have h0 : sync = 0 := by
          rcases hsync with h | h
          · exact h
          · exact absurd ⟨hp, by simp [hobj]⟩ h
        subst h0
        simp only [unsentAfterFailedTry, reportedBytes]
        exact ⟨trivial, by simpa using hself⟩
      | some handle =>
        exact hsend _ _ _ rfl rfl


theorem fast_accounting (c : WriteStringCall) (self : StreamBase) (storage_size : Nat)
    (hgood : WellBehaved c) (hsmall : storage_size ≤ STACK_STORAGE_SIZE)
    (hhandle : ¬ (c.env.IsIPCPipe = true ∧ c.send_handle_obj.isSome = true)) :
    ((WriteString.fast c.sb c.env c.enc self c.string c.send_handle_obj
        storage_size).stream.bytes_written_ +
      unsentAfterFailedTry (WriteString.fast c.sb c.env c.enc self c.string c.send_handle_obj
        storage_size).trace) % SIZE_MOD =
    (self.bytes_written_ +
      reportedBytes (WriteString.fast c.sb c.env c.enc self c.string c.send_handle_obj
        storage_size).trace) % SIZE_MOD := by
  obtain ⟨hfit, hcnt, hshrink, hadds⟩ := hgood
  have hds : (c.sb.Write c.string c.enc storage_size).length ≤ storage_size := hfit storage_size
  have hds2 : (c.sb.Write c.string c.enc storage_size).length ≤ 16384 := le_trans hds hsmall
  have hbuf : uv_buf_init (Ptr.stack_storage 0) (c.sb.Write c.string c.enc storage_size).length =
      { base := Ptr.stack_storage 0, len := (c.sb.Write c.string c.enc storage_size).length } :=
    uv_buf_init_of_lt _ _ (by omega)
  generalize hstack : c.sb.Write c.string c.enc storage_size = stack at hds hds2 hbuf
  have hcnt1 := hcnt stack { base := Ptr.stack_storage 0, len := stack.length }
  have hshrink1 := hshrink stack { base := Ptr.stack_storage 0, len := stack.length }
  generalize hout : c.env.DoTryWrite stack { base := Ptr.stack_storage 0, len := stack.length } 1
    = out at hcnt1 hshrink1
  simp only at hshrink1
  unfold WriteString.fast
  simp only [hstack, hbuf, hout]
  by_cases himm : out.err ≠ 0 ∨ out.count = 0
  · simp only [himm, if_true, StreamBase.SetWriteResult, unsentAfterFailedTry, reportedBytes]
    by_cases h0 : out.count = 0
    · simp only [h0, if_true, ne_eq, not_true_eq_false, and_false, if_false]
      unfold size_add
      rw [SIZE_MOD_eq]
      omega
    · have herr : out.err ≠ 0 := by
        rcases himm with h | h
        · exact h
        · exact absurd h h0
      have hl := hshrink1 h0
      simp only [h0, if_false, herr, ne_eq, not_false_eq_true, and_self, if_true]
      unfold size_add size_sub
      rw [SIZE_MOD_eq]
      omega
  · have herr : out.err = 0 := by
      by_contra h
      exact himm (Or.inl h)
    have h0 : out.count ≠ 0 := fun h => himm (Or.inr h)
    have h1 : out.count = 1 := by omega
    have hl := hshrink1 h0
    simp only [herr, h1, ne_eq, not_true_eq_false, false_or, one_ne_zero, if_false, if_true]
    have hi := issue_accounting c.env
      { self with
        bytes_written_ := size_add self.bytes_written_ (size_sub stack.length out.buf.len) }
      c.send_handle_obj storage_size
      { size := out.buf.len, bytes := readStack stack out.buf } out.buf.len
      (size_sub stack.length out.buf.len)
      self.bytes_written_ hadds (by simp [size_add]) (Or.inr hhandle) (by omega)
    obtain ⟨hu, hb⟩ := hi
    simp only [List.cons_append, List.append_eq, List.nil_append, unsentAfterFailedTry,
      reportedBytes, hu, herr, ne_eq, not_true_eq_false, false_and, if_false, Nat.add_zero]
    exact hb

theorem slow_accounting (c : WriteStringCall) (self : StreamBase) (storage_size : Nat)
    (hgood : WellBehaved c) :
    ((WriteString.slow c.sb c.env c.enc self c.string c.send_handle_obj
        storage_size).stream.bytes_written_ +
      unsentAfterFailedTry (WriteString.slow c.sb c.env c.enc self c.string c.send_handle_obj
        storage_size).trace) % SIZE_MOD =
    (self.bytes_written_ +
      reportedBytes (WriteString.slow c.sb c.env c.enc self c.string c.send_handle_obj
        storage_size).trace) % SIZE_MOD := by
  obtain ⟨hfit, _, _, hadds⟩ := hgood
  have hi := issue_accounting c.env self c.send_handle_obj storage_size
    { size := storage_size, bytes := c.sb.Write c.string c.enc storage_size }
    (c.sb.Write c.string c.enc storage_size).length 0 self.bytes_written_ hadds rfl
    (Or.inl rfl) (hfit storage_size)
  obtain ⟨hu, hb⟩ := hi
  unfold WriteString.slow
  simp only [List.cons_append, List.append_eq, List.nil_append, unsentAfterFailedTry,
    reportedBytes, hu, Nat.add_zero]
  exact hb

theorem WriteString_accounting (c : WriteStringCall) (self : StreamBase)
    (hgood : WellBehaved c) :
    ((WriteString c.sb c.env c.enc self c.string c.send_handle_obj).stream.bytes_written_ +
      unsentAfterFailedTry
        (WriteString c.sb c.env c.enc self c.string c.send_handle_obj).trace) % SIZE_MOD =
    (self.bytes_written_ +
      reportedBytes (WriteString c.sb c.env c.enc self c.string c.send_handle_obj).trace)
      % SIZE_MOD := by
  cases hsize : computeStorageSize c.sb c.string c.enc with
  | none => simp [WriteString, hsize, unsentAfterFailedTry, reportedBytes]
  | some storage_size =>
    by_cases hbig : storage_size > INT_MAX
    · simp [WriteString, hsize, hbig, unsentAfterFailedTry, reportedBytes]
    · by_cases hfast : storage_size ≤ STACK_STORAGE_SIZE ∧
          ¬ (c.env.IsIPCPipe = true ∧ c.send_handle_obj.isSome = true)
      · rw [WriteString_eq_fast c.sb c.env c.enc self c.string c.send_handle_obj storage_size
          hsize hfast.1 hfast.2]
        exact fast_accounting c self storage_size hgood hfast.1 hfast.2
      · rw [WriteString_eq_slow c.sb c.env c.enc self c.string c.send_handle_obj storage_size
          hsize (Nat.not_lt.mp hbig) (by
            by_cases h1 : storage_size ≤ STACK_STORAGE_SIZE
            · right
              by_contra h2
              exact hfast ⟨h1, h2⟩
            · left
              exact Nat.not_le.mp h1)]
        exact slow_accounting c self storage_size hgood

/-- C3, as amended: over any sequence of `WriteString` calls whose collaborators
keep their contract, `bytes_written_` moves, modulo `2 ^ 64`, by the sum of the
byte counts reported through `SetWriteResult` minus the lengths left unsent by
the `DoTryWrite` calls that failed with `count` non-zero; when no such length is
left, it moves by exactly the reported sum. -/
theorem writeStrings_bytes_written (calls : List WriteStringCall) (self : StreamBase)
    (hgood : ∀ c ∈ calls, WellBehaved c) :
    ((writeStrings calls self).1.bytes_written_ +
        unsentAfterFailedTry (writeStrings calls self).2) % SIZE_MOD =
      (self.bytes_written_ + reportedBytes (writeStrings calls self).2) % SIZE_MOD ∧
    (unsentAfterFailedTry (writeStrings calls self).2 = 0 →
      (writeStrings calls self).1.bytes_written_ % SIZE_MOD =
        (self.bytes_written_ + reportedBytes (writeStrings calls self).2) % SIZE_MOD) := by
  have main : ∀ (calls : List WriteStringCall) (self : StreamBase),
      (∀ c ∈ calls, WellBehaved c) →
      ((writeStrings calls self).1.bytes_written_ +
          unsentAfterFailedTry (writeStrings calls self).2) % SIZE_MOD =
        (self.bytes_written_ + reportedBytes (writeStrings calls self).2) % SIZE_MOD := by
    intro calls
    induction calls with
    | nil =>
      intro self _
      simp [writeStrings, unsentAfterFailedTry, reportedBytes]
    | cons c rest ih =>
      intro self hg
      have hc := WriteString_accounting c self (hg c (List.mem_cons_self c rest))
      have hr := ih (WriteString c.sb c.env c.enc self c.string c.send_handle_obj).stream
        (fun d hd => hg d (List.mem_cons_of_mem c hd))
      unfold writeStrings
      simp only
      split
      · exact hc
      · simp only [unsentAfterFailedTry_append, reportedBytes_append]
        rw [SIZE_MOD_eq] at hc hr ⊢
        omega
  refine ⟨main calls self hgood, ?_⟩
  intro h0
  have h := main calls self hgood
  rw [h0] at h
  simpa using h

theorem wellBehaved_helloCall_failing (err : Int) :
    WellBehaved (helloCall (streamFailing err)) := by
  refine ⟨?_, ?_, ?_, ?_⟩
  · intro buflen
    exact List.length_take_le _ _
  · intro stack buf
    exact le_refl 1
  · intro stack buf _
    exact le_refl _
  · intro bufs payload h
    rfl

theorem wellBehaved_helloCall_taking (n : Nat) :
    WellBehaved (helloCall (streamTaking n)) := by
  refine ⟨?_, ?_, ?_, ?_⟩
  · intro buflen
    exact List.length_take_le _ _
  · intro stack buf
    simp only [helloCall, streamTaking, tryWriteTaking]
    split <;> simp
  · intro stack buf _
    simp only [helloCall, streamTaking, tryWriteTaking]
    split <;> simp
  · intro bufs payload h
    rfl

/-- C3, as stated, fails: "hello" in ASCII on a stream whose `DoTryWrite` fails
with the error -32 and sends nothing. The collaborators keep their contract,
5 bytes are reported through `SetWriteResult`, and `bytes_written_` stays 0. -/
theorem writeStrings_failed_try_counterexample :
    (∀ c ∈ [helloCall (streamFailing (-32))], WellBehaved c) ∧
    freshStream.bytes_written_ = 0 ∧
    (writeStrings [helloCall (streamFailing (-32))] freshStream).1.bytes_written_ = 0 ∧
    reportedBytes (writeStrings [helloCall (streamFailing (-32))] freshStream).2 = 5 ∧
    ¬ ((writeStrings [helloCall (streamFailing (-32))] freshStream).1.bytes_written_ =
      freshStream.bytes_written_ +
        reportedBytes (writeStrings [helloCall (streamFailing (-32))] freshStream).2) := by
  refine ⟨?_, by decide, by decide, by decide, by decide⟩
  intro c hc
  rw [List.mem_singleton] at hc
  rw [hc]
  exact wellBehaved_helloCall_failing (-32)

/-- C3 as amended, at a concrete input: three writes of "hello", the first on a
failing `DoTryWrite`, the second fully taken, the third taken for 2 bytes. The
counter ends at 10, 15 bytes are reported, 5 were left unsent by the failure. -/
theorem writeStrings_bytes_written_witness :
    (∀ c ∈ [helloCall (streamFailing (-32)), helloCall (streamTaking 5),
      helloCall (streamTaking 2)], WellBehaved c) ∧
    (writeStrings [helloCall (streamFailing (-32)), helloCall (streamTaking 5),
      helloCall (streamTaking 2)] freshStream).1.bytes_written_ = 10 ∧
    reportedBytes (writeStrings [helloCall (streamFailing (-32)), helloCall (streamTaking 5),
      helloCall (streamTaking 2)] freshStream).2 = 15 ∧
    unsentAfterFailedTry (writeStrings [helloCall (streamFailing (-32)),
      helloCall (streamTaking 5), helloCall (streamTaking 2)] freshStream).2 = 5 ∧
    ((writeStrings [helloCall (streamFailing (-32)), helloCall (streamTaking 5),
        helloCall (streamTaking 2)] freshStream).1.bytes_written_ +
      unsentAfterFailedTry (writeStrings [helloCall (streamFailing (-32)),
        helloCall (streamTaking 5), helloCall (streamTaking 2)] freshStream).2) % SIZE_MOD =
    (freshStream.bytes_written_ +
      reportedBytes (writeStrings [helloCall (streamFailing (-32)), helloCall (streamTaking 5),
        helloCall (streamTaking 2)] freshStream).2) % SIZE_MOD := by
  have hgood : ∀ c ∈ [helloCall (streamFailing (-32)), helloCall (streamTaking 5),
      helloCall (streamTaking 2)], WellBehaved c := by
    intro c hc
    simp only [List.mem_cons, List.mem_singleton, List.not_mem_nil, or_false] at hc
    rcases hc with h | h | h
    · rw [h]
      exact wellBehaved_helloCall_failing (-32)
    · rw [h]
      exact wellBehaved_helloCall_taking 5
    · rw [h]
      exact wellBehaved_helloCall_taking 2
  exact ⟨hgood, by decide, by decide, by decide,
    (writeStrings_bytes_written _ freshStream hgood).1⟩

/-! ## The storage size of long UTF-8 strings -/

theorem computeStorageSize_eq_StorageSize (sb : StringBytes) (string : JSString)
    (enc : encoding) (storage_size : Nat)
    (h : computeStorageSize sb string enc = some storage_size) :
    sb.StorageSize string enc = some storage_size := by
  unfold computeStorageSize at h
  split at h
  · exact absurd h (by simp)
  · split at h
    · exact absurd h (by simp)
    · rename_i heq
      rw [heq]
      exact h

theorem exampleSize_manyA_utf8 (n : Nat) :
    exampleStringBytes.Size (manyA n) encoding.UTF8 = some n := by
  simp [exampleStringBytes, manyA, exampleUtf8Width, List.map_replicate, List.sum_replicate]

theorem send_allocations (env : StreamEnv) (self : StreamBase) (data : AllocatedBuffer)
    (buf : uv_buf_t) (sync : Nat) (h : Option Nat) (pre : List Event)
    (hpre : allocations pre = []) :
    allocations (WriteString.send env self data buf sync h pre).trace = [] := by
  have happ : ∀ a b : List Event, allocations (a ++ b) = allocations a ++ allocations b := by
    intro a b
    induction a with
    | nil => simp [allocations]
    | cons e t ih => cases e <;> simp [allocations, ih]
  simp only [WriteString.send, happ, hpre]
  cases (env.Write [buf] [data.bytes.take buf.len] h).res.wrap <;> simp [allocations]

theorem issue_allocations (env : StreamEnv) (self : StreamBase)
    (send_handle_obj : Option HandleObject) (storage_size : Nat) (data : AllocatedBuffer)
    (data_size sync : Nat) :
    allocations
      (WriteString.issue env self send_handle_obj storage_size data data_size sync).trace = [] := by
  unfold WriteString.issue
  split
  · split
    · split
      · split
        · rfl
        · exact send_allocations _ _ _ _ _ _ _ rfl
      · exact send_allocations _ _ _ _ _ _ _ rfl
    · exact send_allocations _ _ _ _ _ _ _ rfl
  · rfl

theorem slow_allocations (sb : StringBytes) (env : StreamEnv) (enc : encoding)
    (self : StreamBase) (string : JSString) (send_handle_obj : Option HandleObject)
    (storage_size : Nat) :
    allocations (WriteString.slow sb env enc self string send_handle_obj storage_size).trace =
      [storage_size] := by
  unfold WriteString.slow
  simp only [List.cons_append, List.append_eq, List.nil_append, allocations, issue_allocations]

theorem sizing_manyA_utf8 (n : Nat) :
    Writev.sizing exampleHost exampleStringBytes
      [Value.string (manyA n), Value.string utf8Name] [0] 0 = some (size_add 0 (3 * n)) := by
  have hp : exampleHost.ParseEncoding (Value.string utf8Name) = encoding.UTF8 := by decide
  have hs : exampleHost.ToString (Value.string (manyA n)) = manyA n := rfl
  have hg0 : Get [Value.string (manyA n), Value.string utf8Name] (0 * 2) =
      Value.string (manyA n) := rfl
  have hg1 : Get [Value.string (manyA n), Value.string utf8Name] (0 * 2 + 1) =
      Value.string utf8Name := rfl
  simp only [Writev.sizing, hg0, hg1, hp, hs, Buffer.HasInstance,
    computeStorageSize_manyA_utf8 n]
  simp

/-- C5, the code at the failing input: for the UTF-8 string of 65536 letters
"a", whose `StringBytes::Size` is 65536 and whose `StringBytes::StorageSize` is
196608, the storage size of `WriteString<UTF8>` is 196608, that many bytes are
allocated, and the sizing pass of `Writev` counts 196608 for the entry. -/
theorem long_utf8_storage_size_is_worst_case :
    (manyA 65536).Length > 65535 ∧
    exampleStringBytes.Size (manyA 65536) encoding.UTF8 = some 65536 ∧
    exampleStringBytes.StorageSize (manyA 65536) encoding.UTF8 = some 196608 ∧
    computeStorageSize exampleStringBytes (manyA 65536) encoding.UTF8 = some 196608 ∧
    allocations (WriteString exampleStringBytes streamDefault encoding.UTF8 freshStream
      (manyA 65536) none).trace = [196608] ∧
    Writev.sizing exampleHost exampleStringBytes
      [Value.string (manyA 65536), Value.string utf8Name] [0] 0 = some 196608 := by
  refine ⟨?_, exampleSize_manyA_utf8 65536, ?_, computeStorageSize_manyA_utf8 65536, ?_, ?_⟩
  · rw [manyA_Length]
    decide
  · exact computeStorageSize_eq_StorageSize _ _ _ _ (computeStorageSize_manyA_utf8 65536)
  · rw [WriteString_eq_slow exampleStringBytes streamDefault encoding.UTF8 freshStream
      (manyA 65536) none 196608 (computeStorageSize_manyA_utf8 65536) (by decide)
      (Or.inl (by decide))]
    exact slow_allocations _ _ _ _ _ _ _
  · rw [sizing_manyA_utf8 65536]
    decide

/-! ## Writev: all entries are buffers -/

theorem allocations_append (a b : List Event) :
    allocations (a ++ b) = allocations a ++ allocations b := by
  induction a with
  | nil => simp [allocations]
  | cons e t ih => cases e <;> simp [allocations, ih]

theorem writeCalls_append (a b : List Event) :
    writeCalls (a ++ b) = writeCalls a ++ writeCalls b := by
  induction a with
  | nil => simp [writeCalls]
  | cons e t ih => cases e <;> simp [writeCalls, ih]

theorem Writev_issue_allocations (env : StreamEnv) (self : StreamBase) (chunks : List Value)
    (storage_size : Nat) (storage : AllocatedBuffer) (bufs : List uv_buf_t) :
    allocations (Writev.issue env self chunks storage_size storage bufs).trace = [] := by
  unfold Writev.issue
  simp only [List.cons_append, List.nil_append, allocations]
  split
  · split <;> rfl
  · rfl

theorem Writev_issue_writeCalls (env : StreamEnv) (self : StreamBase) (chunks : List Value)
    (storage_size : Nat) (storage : AllocatedBuffer) (bufs : List uv_buf_t) :
    writeCalls (Writev.issue env self chunks storage_size storage bufs).trace =
      [(bufs, bufs.map (deref chunks storage), none)] := by
  unfold Writev.issue
  simp only [List.cons_append, List.nil_append, writeCalls]
  split
  · split <;> rfl
  · rfl

theorem Get_map_buffer (buffers : List (List Byte)) (i : Nat) (h : i < buffers.length) :
    Get (buffers.map Value.buffer) i = Value.buffer (buffers.getD i []) := by
  unfold Get
  simp [List.getD, List.getElem?_map, List.getElem?_eq_getElem h]

theorem collect_buffers (buffers : List (List Byte)) (idxs : List Nat)
    (h : ∀ i ∈ idxs, i < buffers.length) :
    Writev.collect (buffers.map Value.buffer) idxs =
      some (idxs.map fun i => { base := Ptr.chunk i, len := (buffers.getD i []).length }) := by
  induction idxs with
  | nil => rfl
  | cons i rest ih =>
    have hi := h i (List.mem_cons_self i rest)
    have hr := ih (fun j hj => h j (List.mem_cons_of_mem i hj))
    simp only [Writev.collect, Get_map_buffer buffers i hi, Buffer.Data, hr, List.map_cons]

theorem range_map_getD (buffers : List (List Byte)) :
    (List.range buffers.length).map (fun i => buffers.getD i []) = buffers := by
  apply List.ext_getElem
  · simp
  · intro i h1 h2
    simp [List.getD, List.getElem?_eq_getElem h2]

/-- C8: with `all_buffers` true, for every array of `n` buffers, `Writev`
calls `Write` exactly once, without send handle, with `n` descriptors, the
`i`-th one being data and length of the `i`-th buffer; the bytes designated
are the buffers themselves, in array order, so that their concatenation is
handed over. Nothing is allocated, the trace is `Write` then `SetWriteResult`,
and the value returned is the error of `Write`. -/
theorem Writev_all_buffers (host : Host) (sb : StringBytes) (env : StreamEnv)
    (self : StreamBase) (buffers : List (List Byte)) :
    writeCalls (Writev host sb env self (buffers.map Value.buffer) true).trace =
      [((List.range buffers.length).map fun i =>
          { base := Ptr.chunk i, len := (buffers.getD i []).length },
        buffers, none)] ∧
    ((List.range buffers.length).map fun i =>
      ({ base := Ptr.chunk i, len := (buffers.getD i []).length } : uv_buf_t)).length =
      buffers.length ∧
    allocations (Writev host sb env self (buffers.map Value.buffer) true).trace = [] ∧
    (Writev host sb env self (buffers.map Value.buffer) true).trace =
      [Event.Write ((List.range buffers.length).map fun i =>
          { base := Ptr.chunk i, len := (buffers.getD i []).length }) buffers none,
        Event.SetWriteResult (env.Write ((List.range buffers.length).map fun i =>
          { base := Ptr.chunk i, len := (buffers.getD i []).length }) buffers none).res] ∧
    (Writev host sb env self (buffers.map Value.buffer) true).ret =
      Outcome.ret (env.Write ((List.range buffers.length).map fun i =>
          { base := Ptr.chunk i, len := (buffers.getD i []).length }) buffers none).res.err := by
  have hcollect := collect_buffers buffers (List.range buffers.length)
    (fun i hi => List.mem_range.mp hi)
  have hpayload : ((List.range buffers.length).map fun i =>
      ({ base := Ptr.chunk i, len := (buffers.getD i []).length } : uv_buf_t)).map
      (deref (buffers.map Value.buffer) { size := 0, bytes := [] }) = buffers := by
    rw [List.map_map]
    conv => rhs; rw [← range_map_getD buffers]
    apply List.map_congr_left
    intro i hi
    simp only [Function.comp, deref, Get_map_buffer buffers i (List.mem_range.mp hi),
      Buffer.Data, Option.getD_some, List.take_length]
  have hkey : Writev host sb env self (buffers.map Value.buffer) true =
      Writev.issue env self (buffers.map Value.buffer) 0 { size := 0, bytes := [] }
        ((List.range buffers.length).map fun i =>
          { base := Ptr.chunk i, len := (buffers.getD i []).length }) := by
    unfold Writev
    simp only [if_true, List.length_map, hcollect]
  rw [hkey]
  refine ⟨?_, by simp, Writev_issue_allocations _ _ _ _ _ _, ?_, ?_⟩
  · rw [Writev_issue_writeCalls, hpayload]
  · unfold Writev.issue
    simp only [hpayload]
    cases (env.Write ((List.range buffers.length).map fun i =>
          { base := Ptr.chunk i, len := (buffers.getD i []).length }) buffers none).res.wrap <;>
      simp
  · unfold Writev.issue
    simp only [hpayload]

/-! ## Writev: the sizing pass -/

theorem Writev_mixed_eq (host : Host) (sb : StringBytes) (env : StreamEnv)
    (self : StreamBase) (chunks : List Value) (storage_size : Nat)
    (hsizing : Writev.sizing host sb chunks (List.range (chunks.length >>> 1)) 0 =
      some storage_size)
    (hmax : storage_size ≤ INT_MAX) :
    Writev host sb env self chunks false =
      match Writev.fill host sb chunks storage_size (List.range (chunks.length >>> 1))
        { offset := 0, storage := { size := storage_size, bytes := [] }, bufs := [] } with
      | none =>
        { ret := Outcome.abort, stream := self
          trace := if storage_size > 0 then [Event.AllocateManaged storage_size] else [] }
      | some st =>
        { ret := (Writev.issue env self chunks storage_size st.storage st.bufs).ret
          stream := (Writev.issue env self chunks storage_size st.storage st.bufs).stream
          trace := (if storage_size > 0 then [Event.AllocateManaged storage_size] else []) ++
            (Writev.issue env self chunks storage_size st.storage st.bufs).trace } := by
  have hstorage : (if storage_size > 0 then ({ size := storage_size, bytes := [] } : AllocatedBuffer)
      else { size := 0, bytes := [] }) = { size := storage_size, bytes := [] } := by
    by_cases h0 : storage_size > 0
    · simp [h0]
    · have : storage_size = 0 := by omega
      simp [this]
  unfold Writev
  simp only [Bool.false_eq_true, if_false, hsizing, Nat.not_lt.mpr hmax, hstorage]

/-- What the size check of `Writev` does with the total `storage_size` that the
sizing loop computed: above `INT_MAX` the call returns `UV_ENOBUFS` with an
empty trace and an unchanged stream, and only then; otherwise the only
allocation is one of `storage_size` bytes, none when it is 0. -/
theorem Writev_sizing_limit (host : Host) (sb : StringBytes) (env : StreamEnv)
    (self : StreamBase) (chunks : List Value) (storage_size : Nat)
    (hsizing : Writev.sizing host sb chunks (List.range (chunks.length >>> 1)) 0 =
      some storage_size) :
    (((Writev host sb env self chunks false).ret = Outcome.ret UV_ENOBUFS ∧
        (Writev host sb env self chunks false).trace = []) ↔ storage_size > INT_MAX) ∧
    (storage_size > INT_MAX →
      Writev host sb env self chunks false =
        { ret := Outcome.ret UV_ENOBUFS, stream := self, trace := [] }) ∧
    (storage_size ≤ INT_MAX →
      allocations (Writev host sb env self chunks false).trace =
        if storage_size = 0 then [] else [storage_size]) := by
  by_cases hbig : storage_size > INT_MAX
  · have hkey : Writev host sb env self chunks false =
        { ret := Outcome.ret UV_ENOBUFS, stream := self, trace := [] } := by
      unfold Writev
      simp [hsizing, hbig]
    rw [hkey]
    refine ⟨⟨fun _ => hbig, fun _ => ⟨rfl, rfl⟩⟩, fun _ => rfl, fun h => ?_⟩
    omega
  · have hle : storage_size ≤ INT_MAX := Nat.not_lt.mp hbig
    have halloc : allocations
        (if storage_size > 0 then [Event.AllocateManaged storage_size] else []) =
        if storage_size = 0 then [] else [storage_size] := by
      by_cases h0 : storage_size = 0
      · simp [h0, allocations]
      · have hpos : storage_size > 0 := Nat.pos_of_ne_zero h0
        simp [h0, hpos, allocations]
    rw [Writev_mixed_eq host sb env self chunks storage_size hsizing hle]
    refine ⟨⟨?_, fun h => absurd h hbig⟩, fun h => absurd h hbig, fun _ => ?_⟩
    · rintro ⟨hret, htrace⟩
      exfalso
      cases hfill : Writev.fill host sb chunks storage_size (List.range (chunks.length >>> 1))
          { offset := 0, storage := { size := storage_size, bytes := [] }, bufs := [] } with
      | none =>
        rw [hfill] at hret
        simp at hret
      | some st =>
        rw [hfill] at htrace
        have hw := congrArg writeCalls htrace
        simp only [writeCalls_append, Writev_issue_writeCalls] at hw
        simp [writeCalls] at hw
    · cases hfill : Writev.fill host sb chunks storage_size (List.range (chunks.length >>> 1))
          { offset := 0, storage := { size := storage_size, bytes := [] }, bufs := [] } with
      | none => exact halloc
      | some st =>
        simp only [allocations_append, Writev_issue_allocations, List.append_nil]
        exact halloc

theorem requiredEncodedSize_manyA_utf8 (n : Nat) (h : 65535 < n) :
    requiredEncodedSize exampleStringBytes (manyA n) encoding.UTF8 = some n := by
  unfold requiredEncodedSize
  rw [manyA_Length]
  simp only [h, gt_iff_lt, and_self, if_true]
  exact exampleSize_manyA_utf8 n

theorem parse_utf8Name : exampleHost.ParseEncoding (Value.string utf8Name) = encoding.UTF8 := by
  decide

theorem requiredTotal_utf8Chunks (n : Nat) (h : 65535 < n) :
    requiredTotal exampleHost exampleStringBytes (utf8Chunks n)
      (List.range ((utf8Chunks n).length >>> 1)) = some (n + 0) := by
  have hr : List.range ((utf8Chunks n).length >>> 1) = [0] := by
    simp [utf8Chunks, List.range_succ]
  have hg0 : Get (utf8Chunks n) (0 * 2) = Value.string (manyA n) := rfl
  have hg1 : Get (utf8Chunks n) (0 * 2 + 1) = Value.string utf8Name := rfl
  have hs : exampleHost.ToString (Value.string (manyA n)) = manyA n := rfl
  rw [hr]
  simp only [requiredTotal, requiredSize, hg0, hg1, hs, parse_utf8Name, Buffer.HasInstance,
    Bool.false_eq_true, if_false, requiredEncodedSize_manyA_utf8 n h]

theorem sizing_utf8Chunks (n : Nat) :
    Writev.sizing exampleHost exampleStringBytes (utf8Chunks n)
      (List.range ((utf8Chunks n).length >>> 1)) 0 = some (size_add 0 (3 * n)) := by
  have hr : List.range ((utf8Chunks n).length >>> 1) = [0] := by
    simp [utf8Chunks, List.range_succ]
  rw [hr]
  exact sizing_manyA_utf8 n

theorem requiredTotal_twoUtf8Chunks (n : Nat) (h : 65535 < n) :
    requiredTotal exampleHost exampleStringBytes (twoUtf8Chunks n)
      (List.range ((twoUtf8Chunks n).length >>> 1)) = some (n + (n + 0)) := by
  have hr : List.range ((twoUtf8Chunks n).length >>> 1) = [0, 1] := by
    simp [twoUtf8Chunks, List.range_succ]
  have hg0 : Get (twoUtf8Chunks n) (0 * 2) = Value.string (manyA n) := rfl
  have hg1 : Get (twoUtf8Chunks n) (0 * 2 + 1) = Value.string utf8Name := rfl
  have hg2 : Get (twoUtf8Chunks n) (1 * 2) = Value.string (manyA n) := rfl
  have hg3 : Get (twoUtf8Chunks n) (1 * 2 + 1) = Value.string utf8Name := rfl
  have hs : exampleHost.ToString (Value.string (manyA n)) = manyA n := rfl
  rw [hr]
  simp only [requiredTotal, requiredSize, hg0, hg1, hg2, hg3, hs, parse_utf8Name,
    Buffer.HasInstance, Bool.false_eq_true, if_false, requiredEncodedSize_manyA_utf8 n h]

theorem sizing_twoUtf8Chunks (n : Nat) :
    Writev.sizing exampleHost exampleStringBytes (twoUtf8Chunks n)
      (List.range ((twoUtf8Chunks n).length >>> 1)) 0 =
      some (size_add (size_add 0 (3 * n)) (3 * n)) := by
  have hr : List.range ((twoUtf8Chunks n).length >>> 1) = [0, 1] := by
    simp [twoUtf8Chunks, List.range_succ]
  have hg0 : Get (twoUtf8Chunks n) (0 * 2) = Value.string (manyA n) := rfl
  have hg1 : Get (twoUtf8Chunks n) (0 * 2 + 1) = Value.string utf8Name := rfl
  have hg2 : Get (twoUtf8Chunks n) (1 * 2) = Value.string (manyA n) := rfl
  have hg3 : Get (twoUtf8Chunks n) (1 * 2 + 1) = Value.string utf8Name := rfl
  have hs : exampleHost.ToString (Value.string (manyA n)) = manyA n := rfl
  rw [hr]
  simp only [Writev.sizing, hg0, hg1, hg2, hg3, hs, parse_utf8Name, Buffer.HasInstance,
    Bool.false_eq_true, if_false, computeStorageSize_manyA_utf8 n]

/-- C7, the code at the failing inputs. One UTF-8 entry of 65536 letters "a"
has the required size 65536, within `INT_MAX`, and `Writev` allocates 196608
bytes for it. Two UTF-8 entries of 400000000 letters each have the required
sizes 400000000 + 400000000 = 800000000, within `INT_MAX`, and `Writev`
returns `UV_ENOBUFS` with an empty trace. Where no long UTF-8 text is involved
the claim's example holds: buffers of 10 and 20 bytes and the ASCII string "ab"
require 2 bytes and exactly 2 are allocated. -/
theorem Writev_long_utf8_entries_oversized :
    requiredTotal exampleHost exampleStringBytes (utf8Chunks 65536)
      (List.range ((utf8Chunks 65536).length >>> 1)) = some 65536 ∧
    65536 ≤ INT_MAX ∧
    allocations (Writev exampleHost exampleStringBytes streamDefault freshStream
      (utf8Chunks 65536) false).trace = [196608] ∧
    requiredTotal exampleHost exampleStringBytes (twoUtf8Chunks 400000000)
      (List.range ((twoUtf8Chunks 400000000).length >>> 1)) = some 800000000 ∧
    800000000 ≤ INT_MAX ∧
    Writev exampleHost exampleStringBytes streamDefault freshStream
      (twoUtf8Chunks 400000000) false =
      { ret := Outcome.ret UV_ENOBUFS, stream := freshStream, trace := [] } ∧
    requiredTotal exampleHost exampleStringBytes mixedChunks
      (List.range (mixedChunks.length >>> 1)) = some 2 ∧
    allocations (Writev exampleHost exampleStringBytes streamDefault freshStream mixedChunks
      false).trace = [2] := by
  have h1 : Writev.sizing exampleHost exampleStringBytes (utf8Chunks 65536)
      (List.range ((utf8Chunks 65536).length >>> 1)) 0 = some 196608 := by
    rw [sizing_utf8Chunks 65536]
    decide
  have h2 : Writev.sizing exampleHost exampleStringBytes (twoUtf8Chunks 400000000)
      (List.range ((twoUtf8Chunks 400000000).length >>> 1)) 0 = some 2400000000 := by
    rw [sizing_twoUtf8Chunks 400000000]
    decide
  have h3 : Writev.sizing exampleHost exampleStringBytes mixedChunks
      (List.range (mixedChunks.length >>> 1)) 0 = some 2 := by decide
  refine ⟨requiredTotal_utf8Chunks 65536 (by decide), by decide, ?_,
    requiredTotal_twoUtf8Chunks 400000000 (by decide), by decide, ?_, by decide, ?_⟩
  · exact (Writev_sizing_limit exampleHost exampleStringBytes streamDefault freshStream
      (utf8Chunks 65536) 196608 h1).2.2 (by decide)
  · exact (Writev_sizing_limit exampleHost exampleStringBytes streamDefault freshStream
      (twoUtf8Chunks 400000000) 2400000000 h2).2.1 (by decide)
  · exact (Writev_sizing_limit exampleHost exampleStringBytes streamDefault freshStream
      mixedChunks 2 h3).2.2 (by decide)

/-! ## Writev: the fill pass -/

theorem textSlices_append (a b : List uv_buf_t) :
    textSlices (a ++ b) = textSlices a ++ textSlices b := by
  induction a with
  | nil => rfl
  | cons x t ih =>
    simp only [List.cons_append, textSlices]
    split <;> simp [ih]

theorem laidOutFrom_append (start : Nat) (slices : List (Nat × Nat)) (len : Nat)
    (h : laidOutFrom start slices) :
    laidOutFrom start (slices ++ [(start + (slices.map Prod.snd).sum, len)]) := by
  induction slices generalizing start with
  | nil => simp [laidOutFrom]
  | cons sl rest ih =>
    obtain ⟨h1, h2⟩ := h
    have := ih (start + sl.2) h2
    simp only [List.cons_append, laidOutFrom, List.map_cons, List.sum_cons]
    refine ⟨h1, ?_⟩
    rw [← Nat.add_assoc]
    exact this

/-- The invariant of the fill loop, for a codec that never stores more than
`buflen` bytes: the loop runs to its end, `offset` stays within the storage,
and the text slices are laid out one after the other up to `offset`. -/
theorem fill_layout (host : Host) (sb : StringBytes) (chunks : List Value) (S : Nat)
    (hfit : ∀ s enc buflen, (sb.Write s enc buflen).length ≤ buflen)
    (hS : S < SIZE_MOD) (idxs : List Nat) (st : FillState)
    (hsize : st.storage.size = S) (hoff : st.offset ≤ S)
    (hsum : ((textSlices st.bufs).map Prod.snd).sum = st.offset)
    (hend : ∀ sl ∈ textSlices st.bufs, sl.1 + sl.2 ≤ st.offset)
    (hpair : List.Pairwise (fun a b : Nat × Nat => a.1 + a.2 ≤ b.1) (textSlices st.bufs))
    (hlaid : laidOutFrom 0 (textSlices st.bufs)) :
    ∃ st1, Writev.fill host sb chunks S idxs st = some st1 ∧
      st1.offset ≤ S ∧
      ((textSlices st1.bufs).map Prod.snd).sum = st1.offset ∧
      (∀ sl ∈ textSlices st1.bufs, sl.1 + sl.2 ≤ st1.offset) ∧
      List.Pairwise (fun a b : Nat × Nat => a.1 + a.2 ≤ b.1) (textSlices st1.bufs) ∧
      st1.bufs.length = st.bufs.length + idxs.length ∧
      laidOutFrom 0 (textSlices st1.bufs) := by
  induction idxs generalizing st with
  | nil => exact ⟨st, rfl, hoff, hsum, hend, hpair, rfl, hlaid⟩
  | cons i rest ih =>
    cases hdata : Buffer.Data (Get chunks (i * 2)) with
    | some bytes =>
      simp only [Writev.fill, hdata]
      have hts : textSlices (st.bufs ++ [{ base := Ptr.chunk (i * 2), len := bytes.length }]) =
          textSlices st.bufs := by
        rw [textSlices_append]
        simp [textSlices]
      obtain ⟨st1, h1, h2, h3, h4, h5, h6, h7⟩ := ih
        { st with bufs := st.bufs ++ [{ base := Ptr.chunk (i * 2), len := bytes.length }] }
        hsize hoff (by rw [hts]; exact hsum) (by rw [hts]; exact hend) (by rw [hts]; exact hpair)
        (by rw [hts]; exact hlaid)
      refine ⟨st1, h1, h2, h3, h4, h5, ?_, h7⟩
      rw [h6]
      simp only [List.length_append, List.length_cons, List.length_nil]
      omega
    | none =>
      simp only [Writev.fill, hdata, hoff, if_true]
      have hsub : size_sub st.storage.size st.offset = S - st.offset := by
        rw [hsize]
        unfold size_sub
        rw [SIZE_MOD_eq] at hS ⊢
        omega
      rw [hsub]
      generalize hw : sb.Write (host.ToString (Get chunks (i * 2)))
        (host.ParseEncoding (Get chunks (i * 2 + 1))) (S - st.offset) = written
      have hlen : written.length ≤ S - st.offset := by
        rw [← hw]
        exact hfit _ _ _
      have hadd : size_add st.offset written.length = st.offset + written.length := by
        unfold size_add
        apply Nat.mod_eq_of_lt
        omega
      rw [hadd]
      have hts : textSlices (st.bufs ++ [{ base := Ptr.storage st.offset, len := written.length }]) =
          textSlices st.bufs ++ [(st.offset, written.length)] := by
        rw [textSlices_append]
        simp [textSlices]
      obtain ⟨st1, h1, h2, h3, h4, h5, h6, h7⟩ := ih
        { offset := st.offset + written.length
          storage := { st.storage with bytes := st.storage.bytes.take st.offset ++ written }
          bufs := st.bufs ++ [{ base := Ptr.storage st.offset, len := written.length }] }
        hsize (by simp only; omega)
        (by
          rw [hts]
          simp only [List.map_append, List.sum_append, List.map_cons, List.map_nil,
            List.sum_cons, List.sum_nil, hsum]
          omega)
        (by
          rw [hts]
          intro sl hsl
          rw [List.mem_append] at hsl
          rcases hsl with h | h
          · have := hend sl h
            simp only
            omega
          · rw [List.mem_singleton] at h
            rw [h])
        (by
          rw [hts, List.pairwise_append]
          refine ⟨hpair, List.pairwise_singleton _ _, ?_⟩
          intro a ha b hb
          rw [List.mem_singleton] at hb
          rw [hb]
          exact hend a ha)
        (by
          rw [hts]
          have := laidOutFrom_append 0 (textSlices st.bufs) written.length hlaid
          rw [hsum, Nat.zero_add] at this
          exact this)
      refine ⟨st1, h1, h2, h3, h4, h5, ?_, h7⟩
      rw [h6]
      simp only [List.length_append, List.length_cons, List.length_nil]
      omega

/-- C6: in mixed mode, for a codec that never stores more than the capacity it
is offered, once the sizing pass gave `storage_size` within the limit, the fill
pass passes every `CHECK_LE(offset, storage_size)` and `Write` is called once
with one descriptor per entry; the lengths of the text slices sum to at most
`storage_size`, every slice `[offset, offset + len)` lies inside the shared
storage, no two slices overlap, and they are laid out one after the other from
offset 0 in entry order. -/
theorem Writev_mixed_layout (host : Host) (sb : StringBytes) (env : StreamEnv)
    (self : StreamBase) (chunks : List Value) (storage_size : Nat)
    (hsizing : Writev.sizing host sb chunks (List.range (chunks.length >>> 1)) 0 =
      some storage_size)
    (hmax : storage_size ≤ INT_MAX)
    (hfit : ∀ s enc buflen, (sb.Write s enc buflen).length ≤ buflen) :
    (Writev host sb env self chunks false).ret ≠ Outcome.abort ∧
    ∃ bufs payload,
      writeCalls (Writev host sb env self chunks false).trace = [(bufs, payload, none)] ∧
      bufs.length = chunks.length >>> 1 ∧
      ((textSlices bufs).map Prod.snd).sum ≤ storage_size ∧
      (∀ sl ∈ textSlices bufs, sl.1 + sl.2 ≤ storage_size) ∧
      List.Pairwise (fun a b : Nat × Nat => a.1 + a.2 ≤ b.1) (textSlices bufs) ∧
      laidOutFrom 0 (textSlices bufs) := by
  have hS : storage_size < SIZE_MOD := by
    rw [SIZE_MOD_eq]
    unfold INT_MAX at hmax
    omega
  obtain ⟨st, h1, h2, h3, h4, h5, h6, h7⟩ := fill_layout host sb chunks storage_size hfit hS
    (List.range (chunks.length >>> 1))
    { offset := 0, storage := { size := storage_size, bytes := [] }, bufs := [] }
    rfl (Nat.zero_le _) rfl (by intro sl hsl; simp [textSlices] at hsl)
    (by simp [textSlices]) (by simp [textSlices, laidOutFrom])
  rw [Writev_mixed_eq host sb env self chunks storage_size hsizing hmax, h1]
  refine ⟨?_, st.bufs, st.bufs.map (deref chunks st.storage), ?_, ?_, ?_, ?_, h5, h7⟩
  · simp [Writev.issue]
  · simp only [writeCalls_append, Writev_issue_writeCalls]
    by_cases h0 : storage_size > 0 <;> simp [h0, writeCalls]
  · simpa using h6
  · rw [h3]
    exact h2
  · intro sl hsl
    exact le_trans (h4 sl hsl) h2

/-- C6, at a concrete input: "hello" in ASCII, a buffer of 3 bytes and "ab" in
UTF-8 are sized 5 + 0 + 6 = 11; the two texts land at offsets 0 and 5 of the
shared storage with lengths 5 and 2. -/
theorem Writev_mixed_layout_witness :
    Writev.sizing exampleHost exampleStringBytes twoTextChunks
      (List.range (twoTextChunks.length >>> 1)) 0 = some 11 ∧
    writeCalls (Writev exampleHost exampleStringBytes streamDefault freshStream twoTextChunks
      false).trace =
      [([{ base := Ptr.storage 0, len := 5 }, { base := Ptr.chunk 2, len := 3 },
          { base := Ptr.storage 5, len := 2 }],
        [[104, 101, 108, 108, 111], [1, 2, 3], [97, 98]], none)] ∧
    (Writev exampleHost exampleStringBytes streamDefault freshStream twoTextChunks false).ret ≠
      Outcome.abort ∧
    ∃ bufs payload,
      writeCalls (Writev exampleHost exampleStringBytes streamDefault freshStream twoTextChunks
        false).trace = [(bufs, payload, none)] ∧
      bufs.length = twoTextChunks.length >>> 1 ∧
      ((textSlices bufs).map Prod.snd).sum ≤ 11 ∧
      (∀ sl ∈ textSlices bufs, sl.1 + sl.2 ≤ 11) ∧
      List.Pairwise (fun a b : Nat × Nat => a.1 + a.2 ≤ b.1) (textSlices bufs) ∧
      laidOutFrom 0 (textSlices bufs) := by
  have h := Writev_mixed_layout exampleHost exampleStringBytes streamDefault freshStream
    twoTextChunks 11 (by decide) (by decide) (fun _ _ _ => List.length_take_le _ _)
  exact ⟨by decide, by decide, h.1, h.2⟩

/-! ## The read path -/

theorem CallJSOnreadMethod_onreadCalls (stream : StreamBase) (nread : Int)
    (ab : Option (List Byte)) (offset : Nat) :
    onreadCalls (stream.CallJSOnreadMethod nread ab offset).trace = [(nread, ab, offset)] := by
  unfold StreamBase.CallJSOnreadMethod
  cases stream.async_wrap with
  | none => rfl
  | some wrap =>
    simp only
    split <;> rfl

theorem CallJSOnreadMethod_state (stream : StreamBase) (nread : Int)
    (ab : Option (List Byte)) (offset : Nat) :
    (stream.CallJSOnreadMethod nread ab offset).stream.kReadBytesOrError = nread ∧
    (stream.CallJSOnreadMethod nread ab offset).stream.kArrayBufferOffset = offset := by
  unfold StreamBase.CallJSOnreadMethod
  cases stream.async_wrap with
  | none => exact ⟨rfl, rfl⟩
  | some wrap =>
    simp only
    split <;> exact ⟨rfl, rfl⟩

/-- C9, as stated, fails at `nread = 0`: `OnStreamRead` returns without calling
`CallJSOnreadMethod`, where the claim has one call with `nread = 0`, no buffer
and offset 0. -/
theorem OnStreamRead_zero_counterexample :
    (0 : Int) ≤ 0 ∧
    onreadCalls (EmitToJSStreamListener.OnStreamRead freshStream 0
      { size := 65536, bytes := [] }).trace = [] ∧
    ¬ (onreadCalls (EmitToJSStreamListener.OnStreamRead freshStream 0
      { size := 65536, bytes := [] }).trace = [(0, none, 0)]) := by
  refine ⟨le_refl 0, ?_, ?_⟩
  · decide
  · decide

/-- C9, as amended: for a read result `nread <= 0`, `OnStreamRead` calls
`CallJSOnreadMethod` exactly once, with `nread`, no buffer and offset 0, when
`nread < 0` (and the two state fields are set accordingly); when `nread = 0` it
returns with no call at all and the stream unchanged. -/
theorem OnStreamRead_non_positive (stream : StreamBase) (nread : Int) (buf : AllocatedBuffer)
    (h : nread ≤ 0) :
    onreadCalls (EmitToJSStreamListener.OnStreamRead stream nread buf).trace =
      (if nread < 0 then [(nread, none, 0)] else []) ∧
    (nread < 0 →
      (EmitToJSStreamListener.OnStreamRead stream nread buf).stream.kReadBytesOrError = nread ∧
      (EmitToJSStreamListener.OnStreamRead stream nread buf).stream.kArrayBufferOffset = 0) ∧
    (nread = 0 →
      EmitToJSStreamListener.OnStreamRead stream nread buf =
        { ret := Outcome.done, stream := stream, trace := [] }) := by
  unfold EmitToJSStreamListener.OnStreamRead
  simp only [h, if_true]
  by_cases hneg : nread < 0
  · simp only [hneg, if_true]
    refine ⟨CallJSOnreadMethod_onreadCalls _ _ _ _, fun _ => CallJSOnreadMethod_state _ _ _ _, ?_⟩
    intro h0
    omega
  · simp only [hneg, if_false]
    exact ⟨rfl, fun hn => absurd hn (fun hf => hf), fun _ => trivial⟩

/-- C9 as amended, at a concrete input: the result -4095 (end of file) is
forwarded once, with no buffer and offset 0. -/
theorem OnStreamRead_non_positive_witness :
    (-4095 : Int) ≤ 0 ∧
    onreadCalls (EmitToJSStreamListener.OnStreamRead freshStream (-4095)
      { size := 65536, bytes := [] }).trace = [(-4095, none, 0)] := by
  have h := OnStreamRead_non_positive freshStream (-4095) { size := 65536, bytes := [] }
    (by decide)
  exact ⟨by decide, h.1⟩

end node
